import Mathlib

/-!
# LocalAgentCore: a verified shallow embedding

This file embeds the core data model and algorithms of the
`LocalAgentCore` legal document-analysis package (Python) into Lean 4
and settles the specification claims about them.

Conventions used throughout:
* Python strings are embedded as `List Char`; Python string indices are
  list indices (both count Unicode code points).
* Python floats are embedded as exact rationals `ℚ`; every number the
  embedded code manipulates is a small product/quotient of decimal
  literals, so exact arithmetic matches the intent of the code.
* Python dicts used as keyed stores are embedded as association lists
  with first-match lookup; the embedded code only inserts a key when it
  is absent, so inserting at the front is faithful.
* `datetime` timestamps, processing times, and random `uuid4`
  identifiers are omitted: no claim depends on them.
* Python object identity for `AnalysisResult` (needed by the cache
  claims) is modelled with an explicit heap: results live in a list and
  the orchestrator returns heap indices; two references alias exactly
  when the indices are equal.
-/

namespace LocalAgentCore

/-! ## Data model (`base.py`) -/

/-- `SeverityLevel` enumeration from `base.py`. -/
inductive SeverityLevel where
  | critical
  | high
  | medium
  | low
  | info
deriving DecidableEq, Repr

/-- `LegalIssueType` enumeration from `base.py`. -/
inductive LegalIssueType where
  | contradiction
  | ambiguity
  | missing_clause
  | compliance_issue
  | risk_factor
  | inconsistency
  | formatting_error
  | reference_error
deriving DecidableEq, Repr

/-- `DocumentType` enumeration from `base.py` (closed, 15 members). -/
inductive DocumentType where
  | contract
  | agreement
  | affidavit
  | letter
  | motion
  | brief
  | complaint
  | answer
  | discovery
  | settlement
  | memorandum
  | opinion
  | order
  | judgment
  | unknown
deriving DecidableEq, Repr

/-- The `location` dict attached to a `LegalIssue`.  The detectors build
it in exactly three shapes: empty, `{"start": .., "end": ..}`,
`{"dates": [span, span]}` / `{"amounts": [span, span]}`. -/
inductive IssueLocation where
  | empty
  | span (start stop : Nat)
  | dateSpans (spans : List (Nat × Nat))
  | amountSpans (spans : List (Nat × Nat))
deriving DecidableEq, Repr

/-- The character spans an `IssueLocation` references. -/
def IssueLocation.spans : IssueLocation → List (Nat × Nat)
  | .empty => []
  | .span s e => [(s, e)]
  | .dateSpans l => l
  | .amountSpans l => l

/-- `LegalIssue` dataclass from `base.py` (uuid and timestamp omitted). -/
structure LegalIssue where
  type : LegalIssueType := .contradiction
  severity : SeverityLevel := .medium
  title : List Char := []
  description : List Char := []
  location : IssueLocation := .empty
  confidence : ℚ := 0
  suggestions : List (List Char) := []
deriving DecidableEq, Repr

/-- `Classification` dataclass from `base.py`.  Its `metadata` carries
the `all_scores` diagnostic map built by the classifier. -/
structure Classification where
  document_type : DocumentType := .unknown
  confidence : ℚ := 0
  sub_categories : List (List Char) := []
  all_scores : List (DocumentType × ℚ) := []
deriving DecidableEq, Repr

/-- `Remedy` dataclass from `base.py` (uuid omitted). -/
structure Remedy where
  title : String := ""
  description : String := ""
  category : String := ""
  priority : SeverityLevel := .medium
  applicable_issues : List String := []
  implementation_steps : List String := []
  legal_basis : List String := []
  estimated_impact : String := ""
  from_template : Bool := false
deriving DecidableEq, Repr

/-! ## ContradictionDetector: confidence aggregation
(`contradiction_detector.py`, `_calculate_confidence_score`) -/

/-- The `severity_weights` dict of `_calculate_confidence_score`.  The
dict covers every `SeverityLevel`, so the Python-side `.get` default of
`0.5` is unreachable and the embedding is a total function. -/
def severityWeight : SeverityLevel → ℚ
  | .critical => 1
  | .high => 0.8
  | .medium => 0.6
  | .low => 0.4
  | .info => 0.2

/-- `ContradictionDetector._calculate_confidence_score`. -/
def calculate_confidence_score (contradictions : List LegalIssue)
    (token_count : Nat) : ℚ :=
  if contradictions.isEmpty then 0.95
  else
    let total_weight :=
      (contradictions.map (fun i => severityWeight i.severity)).sum
    let weighted_confidence :=
      (contradictions.map (fun i => i.confidence * severityWeight i.severity)).sum
    let avg_confidence :=
      if 0 < total_weight then weighted_confidence / total_weight else 0.5
    let complexity_factor := min 1 ((token_count : ℚ) / 1000)
    min 0.99 (avg_confidence * (0.7 + 0.3 * complexity_factor))

/-! ## ContradictionDetector: obligation-conflict extraction
(`contradiction_detector.py`, `_detect_term_conflicts`)

The three obligation patterns are
`\b(\w+)\s+shall\s+(not\s+)?(\w+)` (and likewise for `must`, `will`),
matched with `re.IGNORECASE` via `re.finditer`.  Because the character
classes `\w` and `\s` are disjoint and each `+` is greedy, the regex
engine's behaviour on these patterns is the deterministic scanner
below; the single backtracking point is the optional `(not\s+)?` group,
which the engine drops again when the final `\w+` cannot match.
`\w`/`\s` are embedded with their ASCII meaning. -/

/-- ASCII reading of the regex class `\w`. -/
def isWordChar (c : Char) : Bool := c.isAlphanum || c = '_'

/-- ASCII reading of the regex class `\s`. -/
def isSpaceChar (c : Char) : Bool :=
  c = ' ' || c = '\t' || c = '\n' || c = '\r' || c = '\x0b' || c = '\x0c'

/-- Length of the maximal prefix run satisfying `p` (the text a greedy
`class+` consumes). -/
def runLen (p : Char → Bool) : List Char → Nat
  | [] => 0
  | c :: cs => if p c then runLen p cs + 1 else 0

/-- Case-insensitive prefix test (first list is the lowercase needle). -/
def startsWithCI : List Char → List Char → Bool
  | [], _ => true
  | _ :: _, [] => false
  | k :: ks, c :: cs => (c.toLower = k) && startsWithCI ks cs

/-- One `re.finditer` match of an obligation pattern, with the groups
the detector extracts (`group(1).lower()`, `group(2) is not None`,
`group(3).lower()`) and the match span. -/
structure ObligationMatch where
  entity : List Char
  negation : Bool
  action : List Char
  start : Nat
  stop : Nat
  category : List Char
deriving DecidableEq, Repr

/-- Anchored match of `\b(\w+)\s+<kw>\s+(not\s+)?(\w+)` (IGNORECASE) at
position `i` of `text`; `kw` is the lowercase keyword. -/
def matchObligationAt (kw category : List Char) (text : List Char)
    (i : Nat) : Option ObligationMatch :=
  -- \b before group 1: position 0 or a non-word character before it
  if 0 < i ∧ isWordChar (text.getD (i - 1) ' ') then none
  else
    let w1 := runLen isWordChar (text.drop i)
    if w1 = 0 then none else
    let s1 := runLen isSpaceChar (text.drop (i + w1))
    if s1 = 0 then none else
    let k := i + w1 + s1
    if !startsWithCI kw (text.drop k) then none else
    let k2 := k + kw.length
    let s2 := runLen isSpaceChar (text.drop k2)
    if s2 = 0 then none else
    let m := k2 + s2
    -- optional `(not\s+)?`; dropped again if no word follows it
    let s3 := runLen isSpaceChar (text.drop (m + 3))
    let negGroup := startsWithCI ['n', 'o', 't'] (text.drop m) && decide (0 < s3)
    let neg := negGroup && decide (0 < runLen isWordChar (text.drop (m + 3 + s3)))
    let m2 := if neg then m + 3 + s3 else m
    let w2 := runLen isWordChar (text.drop m2)
    if w2 = 0 then none else
    some {
      entity := ((text.drop i).take w1).map Char.toLower
      negation := neg
      action := ((text.drop m2).take w2).map Char.toLower
      start := i
      stop := m2 + w2
      category := category }

/-- The `re.finditer` scan: try each position from left to right and
resume after the end of every (non-empty) match.  `fuel` bounds the
number of steps; each step advances the position, so
`text.length + 1` steps always suffice. -/
def scanObligationsFrom (kw category text : List Char) :
    Nat → Nat → List ObligationMatch
  | 0, _ => []
  | fuel + 1, i =>
    if text.length ≤ i then []
    else
      match matchObligationAt kw category text i with
      | some m =>
          m :: scanObligationsFrom kw category text fuel (max (i + 1) m.stop)
      | none => scanObligationsFrom kw category text fuel (i + 1)

/-- All matches of one obligation pattern, in text order. -/
def findObligations (kw category text : List Char) : List ObligationMatch :=
  scanObligationsFrom kw category text (text.length + 1) 0

/-- The `obligation_patterns` loop of `_detect_term_conflicts`: the
three patterns are scanned in order, sharing one `obligations` dict. -/
def obligationMatches (text : List Char) : List ObligationMatch :=
  findObligations "shall".toList "obligation".toList text ++
  findObligations "must".toList "requirement".toList text ++
  findObligations "will".toList "commitment".toList text

/-- First-match association-list lookup (Python dict read). -/
def lookupAssoc {κ ν : Type} [DecidableEq κ] (k : κ) :
    List (κ × ν) → Option ν
  | [] => none
  | (k', v) :: rest => if k = k' then some v else lookupAssoc k rest

/-- The dict key `f"{entity}_{action}"`. -/
def ObligationMatch.key (m : ObligationMatch) : List Char :=
  m.entity ++ '_' :: m.action

/-- The `LegalIssue` `_detect_term_conflicts` emits for a conflicting
match `m` (the `conflicts.append(...)` call). -/
def mkTermConflictIssue (m : ObligationMatch) : LegalIssue where
  type := .contradiction
  severity := .high
  title := "Conflicting ".toList ++ m.category ++ " for ".toList ++ m.entity
  description := "Document contains conflicting statements about ".toList ++
    m.entity ++ "\x27s obligation to ".toList ++ m.action
  location := .span m.start m.stop
  confidence := 0.9
  suggestions :=
    ["Review and clarify the obligation of ".toList ++ m.entity ++
       " regarding ".toList ++ m.action,
     "Ensure consistency in obligation statements throughout document".toList]

/-- The match loop of `_detect_term_conflicts`: on a key hit with the
opposite polarity an issue is emitted (and the stored entry is kept);
on a miss the key is inserted. -/
def detectTermConflictsAux :
    List ObligationMatch → List (List Char × Bool) → List LegalIssue
  | [], _ => []
  | m :: ms, obligations =>
    match lookupAssoc m.key obligations with
    | some negation =>
        if negation ≠ m.negation then
          mkTermConflictIssue m :: detectTermConflictsAux ms obligations
        else
          detectTermConflictsAux ms obligations
    | none =>
        detectTermConflictsAux ms ((m.key, m.negation) :: obligations)

/-- `ContradictionDetector._detect_term_conflicts`. -/
def detect_term_conflicts (text : List Char) : List LegalIssue :=
  detectTermConflictsAux (obligationMatches text) []

/-! ## RemedyCompiler: deduplication and prioritization
(`remedy_compiler.py`, `_deduplicate_and_prioritize`) -/

/-- The `priority_order` dict of `_deduplicate_and_prioritize`.  The
dict covers every `SeverityLevel`, so the `.get` default of `5` is
unreachable and the embedding is a total function. -/
def priority_order : SeverityLevel → Nat
  | .critical => 0
  | .high => 1
  | .medium => 2
  | .low => 3
  | .info => 4

/-- The title-deduplication loop of `_deduplicate_and_prioritize`:
keep a remedy exactly when its title has not been seen yet. -/
def dedupByTitle : List Remedy → List String → List Remedy
  | [], _ => []
  | r :: rs, seen =>
    if r.title ∈ seen then dedupByTitle rs seen
    else r :: dedupByTitle rs (r.title :: seen)

/-- `RemedyCompiler._deduplicate_and_prioritize`: deduplicate by title,
then `sorted(..., key=priority_order)`.  Python's `sorted` is a stable
merge sort; it is embedded as `List.mergeSort`, which is stable. -/
def deduplicate_and_prioritize (remedies : List Remedy) : List Remedy :=
  (dedupByTitle remedies []).mergeSort
    (fun a b => decide (priority_order a.priority ≤ priority_order b.priority))

/-- Demonstration remedies used to witness the deduplication claim. -/
def demoRemedyA : Remedy := { title := "A", priority := .high }

/-- Second demonstration remedy (distinct title, equal priority). -/
def demoRemedyB : Remedy := { title := "B", priority := .high }

/-- Third demonstration remedy (critical priority). -/
def demoRemedyC : Remedy := { title := "C", priority := .critical }

/-- Duplicate-titled demonstration remedy (same title as `demoRemedyA`). -/
def demoRemedyA2 : Remedy := { title := "A", priority := .low }

/-- Demonstration remedy list with a duplicated title. -/
def demoRemedies : List Remedy :=
  [demoRemedyA, demoRemedyB, demoRemedyC, demoRemedyA2]

/-! ## InstrumentClassifier (`instrument_classifier.py`)

The classifier's regex patterns all have the shape
`\b lit… (\s+ lit…)* \b` with two optional groups (`honor(able)?`,
`yours?`).  In every pattern the greedy `\w+`/`\s+` runs are followed by
atoms from a disjoint character class (or by `\b` after a maximal word
run), so the regex engine's behaviour is the deterministic maximal-run
matcher below; the only backtracking point is an optional group, which
the engine drops again when the continuation fails. -/

/-- Simple (non-nested) regex atom. -/
inductive SAtom where
  | lit (c : Char)
  | wb
  | wordPlus
  | spacePlus
deriving DecidableEq, Repr

/-- Regex atom: a simple atom or an optional group of simple atoms. -/
inductive RAtom where
  | simple (a : SAtom)
  | opt (g : List SAtom)
deriving DecidableEq, Repr

/-- Whether the head of the remaining text is a word character. -/
def headIsWord : List Char → Bool
  | [] => false
  | c :: _ => isWordChar c

/-- Match a sequence of simple atoms (case-insensitively) against a
prefix of `s`; `prevWord` is the word-ness of the character before the
current position (for `\b`).  Returns the updated word-ness and the
remaining text. -/
def matchSimples : List SAtom → Bool → List Char → Option (Bool × List Char)
  | [], prevWord, s => some (prevWord, s)
  | .lit _ :: _, _, [] => none
  | .lit c :: rest, _, x :: xs =>
      if x.toLower = c then matchSimples rest (isWordChar x) xs else none
  | .wb :: rest, prevWord, s =>
      if prevWord ≠ headIsWord s then matchSimples rest prevWord s else none
  | .wordPlus :: rest, _, s =>
      let n := runLen isWordChar s
      if n = 0 then none else matchSimples rest true (s.drop n)
  | .spacePlus :: rest, _, s =>
      let n := runLen isSpaceChar s
      if n = 0 then none else matchSimples rest false (s.drop n)

/-- Match a full pattern anchored at the current position, with the
one-step backtracking Python performs on an optional group. -/
def matchAtoms : List RAtom → Bool → List Char → Option (Bool × List Char)
  | [], prevWord, s => some (prevWord, s)
  | .simple a :: rest, prevWord, s =>
      match matchSimples [a] prevWord s with
      | none => none
      | some (p, s2) => matchAtoms rest p s2
  | .opt g :: rest, prevWord, s =>
      match matchSimples g prevWord s with
      | some (p, s2) =>
          match matchAtoms rest p s2 with
          | some r => some r
          | none => matchAtoms rest prevWord s
      | none => matchAtoms rest prevWord s

/-- Word-ness of the character before position `i` (false at position 0). -/
def prevWordAt (text : List Char) (i : Nat) : Bool :=
  if i = 0 then false else isWordChar (text.getD (i - 1) ' ')

/-- `len(re.findall(pattern, text, IGNORECASE))`: count non-overlapping
matches scanning left to right.  `fuel` bounds the scan; each step
advances the position, so `text.length + 1` always suffices. -/
def countMatchesFrom (pat : List RAtom) (text : List Char) :
    Nat → Nat → Nat
  | 0, _ => 0
  | fuel + 1, i =>
    if text.length ≤ i then 0
    else
      match matchAtoms pat (prevWordAt text i) (text.drop i) with
      | some (_, s2) =>
          let consumed := (text.drop i).length - s2.length
          1 + countMatchesFrom pat text fuel (max (i + 1) (i + consumed))
      | none => countMatchesFrom pat text fuel (i + 1)

/-- Number of matches of one pattern in the text. -/
def countMatches (pat : List RAtom) (text : List Char) : Nat :=
  countMatchesFrom pat text (text.length + 1) 0

/-- Literal characters of a pattern (stored lowercase). -/
def patChars (s : String) : List RAtom :=
  s.toList.map fun c => .simple (.lit c)

/-- `\b` atom. -/
def rWB : RAtom := .simple .wb

/-- `\s+` atom. -/
def rSP : RAtom := .simple .spacePlus

/-- `\w+` atom. -/
def rWP : RAtom := .simple .wordPlus

/-- A `\b lit… \b` pattern such as `\bwhereas\b` (a literal space in
the source pattern stays a literal space character). -/
def patWord (s : String) : List RAtom := rWB :: patChars s ++ [rWB]

/-- A `\b w1 \s+ w2 \b` pattern such as `\bmutual\s+agreement\b`. -/
def patWords2 (s1 s2 : String) : List RAtom :=
  rWB :: patChars s1 ++ rSP :: patChars s2 ++ [rWB]

/-- A `\b w1 \s+ w2 \s+ w3 \b` pattern. -/
def patWords3 (s1 s2 s3 : String) : List RAtom :=
  rWB :: patChars s1 ++ rSP :: patChars s2 ++ rSP :: patChars s3 ++ [rWB]

/-- A `\b w1 \s+ w2 \s+ w3 \s+ w4 \b` pattern. -/
def patWords4 (s1 s2 s3 s4 : String) : List RAtom :=
  rWB :: patChars s1 ++ rSP :: patChars s2 ++ rSP :: patChars s3 ++
    rSP :: patChars s4 ++ [rWB]

/-- `\bdear\s+\w+\b`. -/
def patDear : List RAtom := rWB :: patChars "dear" ++ [rSP, rWP, rWB]

/-- `\byours?\s+sincerely\b`. -/
def patYours : List RAtom :=
  rWB :: patChars "your" ++ RAtom.opt [.lit 's'] :: rSP ::
    patChars "sincerely" ++ [rWB]

/-- `\bhonor(able)?\s+court\b`. -/
def patHonor : List RAtom :=
  rWB :: patChars "honor" ++
    RAtom.opt [.lit 'a', .lit 'b', .lit 'l', .lit 'e'] :: rSP ::
    patChars "court" ++ [rWB]

/-- One entry of the `_classification_rules` table. -/
structure ClassificationRule where
  keywords : List (List Char)
  phrases : List (List Char)
  sections : List (List Char)
  patterns : List (List RAtom)
  confidence_threshold : ℚ

/-- Convert a list of string literals to lists of characters. -/
def toCL (l : List String) : List (List Char) := l.map String.toList

/-- `InstrumentClassifier._load_classification_rules` (dict in
insertion order). -/
def classification_rules : List (DocumentType × ClassificationRule) :=
  [(.contract,
    { keywords := toCL ["agreement", "contract", "hereby", "whereas",
        "consideration", "parties", "covenant"]
      phrases := toCL ["this agreement", "enter into", "binding agreement",
        "terms and conditions"]
      sections := toCL ["recitals", "definitions", "obligations",
        "termination", "governing law"]
      patterns := [patWord "whereas", patWord "now therefore",
        patWord "consideration"]
      confidence_threshold := 0.7 }),
   (.agreement,
    { keywords := toCL ["agreement", "understand", "acknowledge", "mutual",
        "parties", "undertake"]
      phrases := toCL ["mutual agreement", "parties agree",
        "understanding between"]
      sections := toCL ["purpose", "scope", "responsibilities", "duration"]
      patterns := [patWords2 "mutual" "agreement", patWords2 "parties" "agree"]
      confidence_threshold := 0.6 }),
   (.affidavit,
    { keywords := toCL ["affidavit", "sworn", "depose", "oath", "affirm",
        "swear", "notary"]
      phrases := toCL ["being duly sworn", "under oath",
        "swear under penalty"]
      sections := toCL ["jurat", "verification", "signature"]
      patterns := [patWords2 "sworn" "statement", patWords2 "under" "oath",
        patWords2 "notary" "public"]
      confidence_threshold := 0.8 }),
   (.letter,
    { keywords := toCL ["dear", "sincerely", "regards", "correspondence",
        "letter"]
      phrases := toCL ["dear sir", "dear madam", "to whom it may concern",
        "yours sincerely"]
      sections := toCL ["date", "salutation", "body", "closing", "signature"]
      patterns := [patDear, patYours, patWords2 "best" "regards"]
      confidence_threshold := 0.5 }),
   (.motion,
    { keywords := toCL ["motion", "court", "honorable", "petition",
        "request", "relief", "plaintiff", "defendant"]
      phrases := toCL ["respectfully moves", "motion for", "comes now",
        "honorable court"]
      sections := toCL ["caption", "introduction", "statement of facts",
        "argument", "prayer for relief"]
      patterns := [patWords2 "motion" "for", patHonor, patWord "plaintiff",
        patWord "defendant"]
      confidence_threshold := 0.8 }),
   (.brief,
    { keywords := toCL ["brief", "argument", "court", "case", "precedent",
        "statute", "holding", "reasoning"]
      phrases := toCL ["statement of the case", "summary of argument",
        "table of authorities"]
      sections := toCL ["table of contents", "table of authorities",
        "statement of facts", "argument", "conclusion"]
      patterns := [patWords3 "table" "of" "authorities",
        patWords4 "statement" "of" "the" "case"]
      confidence_threshold := 0.7 }),
   (.complaint,
    { keywords := toCL ["complaint", "plaintiff", "defendant",
        "jurisdiction", "venue", "cause of action", "damages"]
      phrases := toCL ["comes now", "cause of action", "prayer for relief",
        "jury trial demanded"]
      sections := toCL ["parties", "jurisdiction", "facts",
        "causes of action", "prayer for relief"]
      patterns := [patWords3 "cause" "of" "action",
        patWords3 "prayer" "for" "relief", patWords2 "jury" "trial"]
      confidence_threshold := 0.8 })]

/-- `InstrumentClassifier._build_document_signatures`: a dict defined
for five document types only; `none` models absence from the dict. -/
def document_signatures : DocumentType → Option (List (List Char))
  | .contract => some (toCL ["this agreement", "parties agree",
      "in witness whereof", "executed as of", "binding upon",
      "consideration received"])
  | .affidavit => some (toCL ["being duly sworn", "under penalty of perjury",
      "notary public", "subscribed and sworn", "acknowledged before me"])
  | .motion => some (toCL ["respectfully moves", "motion for summary judgment",
      "motion to dismiss", "comes now", "prayer for relief", "wherefore"])
  | .complaint => some (toCL ["cause of action", "plaintiff alleges",
      "jurisdiction and venue", "jury trial demanded", "damages in excess of"])
  | .letter => some (toCL ["dear sir or madam", "to whom it may concern",
      "yours truly", "best regards", "sincerely yours"])
  | _ => none

/-- Python's substring test `needle in hay`. -/
def containsSub : List Char → List Char → Bool
  | needle, [] => needle.isEmpty
  | needle, c :: rest => needle.isPrefixOf (c :: rest) || containsSub needle rest

/-- `text.lower()`. -/
def lowerText (text : List Char) : List Char := text.map Char.toLower

/-- `InstrumentClassifier._score_keywords`. -/
def score_keywords (text_lower : List Char) (keywords : List (List Char)) : ℚ :=
  if keywords.isEmpty then 0
  else (keywords.countP
      (fun kw => containsSub (kw.map Char.toLower) text_lower) : ℚ) /
    keywords.length

/-- `InstrumentClassifier._score_phrases`. -/
def score_phrases (text_lower : List Char) (phrases : List (List Char)) : ℚ :=
  if phrases.isEmpty then 0
  else (phrases.countP
      (fun ph => containsSub (ph.map Char.toLower) text_lower) : ℚ) /
    phrases.length

/-- `InstrumentClassifier._score_patterns` (every rule set has a
non-empty pattern list, so the zero-denominator case is unreachable). -/
def score_patterns (text : List Char) (patterns : List (List RAtom)) : ℚ :=
  let total_matches := (patterns.map (fun p => countMatches p text)).sum
  min 1 ((total_matches : ℚ) / (patterns.length * 2))

/-- `InstrumentClassifier._score_signatures`. -/
def score_signatures (text_lower : List Char) (doc_type : DocumentType) : ℚ :=
  match document_signatures doc_type with
  | none => 0
  | some sigs =>
      if sigs.isEmpty then 0
      else (sigs.countP
          (fun sg => containsSub (sg.map Char.toLower) text_lower) : ℚ) /
        sigs.length

/-- The per-type weighted score of `_classify_document`
(`min(1.0, score)` applied at the end). -/
def typeScore (text : List Char) (doc_type : DocumentType)
    (rules : ClassificationRule) : ℚ :=
  let text_lower := lowerText text
  min 1 (score_keywords text_lower rules.keywords * 0.3 +
    score_phrases text_lower rules.phrases * 0.3 +
    score_patterns text rules.patterns * 0.2 +
    score_signatures text_lower doc_type * 0.2)

/-- The `type_scores` dict of `_classify_document`, in rule order. -/
def typeScores (text : List Char) : List (DocumentType × ℚ) :=
  classification_rules.map fun e => (e.1, typeScore text e.1 e.2)

/-- `max(type_scores, key=type_scores.get)`: the first key attaining
the maximal score (Python's `max` keeps the earliest maximum).  The
empty case is unreachable (the rules table is non-empty). -/
def bestType : List (DocumentType × ℚ) → DocumentType × ℚ
  | [] => (.unknown, 0)
  | e :: rest =>
      if (bestType rest).2 > e.2 then bestType rest else e

/-- `confidence_threshold` of a document type's rule set (every type
that can win is in the table, so the `none` case is unreachable). -/
def ruleThreshold (doc_type : DocumentType) : ℚ :=
  match lookupAssoc doc_type classification_rules with
  | some r => r.confidence_threshold
  | none => 0

/-- The `contract_types` sub-category table of `_identify_subcategories`. -/
def contract_types : List (List Char × List (List Char)) :=
  [("employment".toList, toCL ["employment", "employee", "employer", "job",
      "salary", "benefits"]),
   ("service".toList, toCL ["services", "provider", "client", "deliverables",
      "scope of work"]),
   ("sales".toList, toCL ["purchase", "sale", "buyer", "seller", "goods",
      "products"]),
   ("licensing".toList, toCL ["license", "intellectual property", "royalty",
      "trademark", "copyright"]),
   ("nda".toList, toCL ["confidential", "non-disclosure", "proprietary",
      "trade secret"])]

/-- The `letter_types` sub-category table of `_identify_subcategories`. -/
def letter_types : List (List Char × List (List Char)) :=
  [("demand".toList, toCL ["demand", "payment", "overdue", "collection",
      "owe"]),
   ("cease_desist".toList, toCL ["cease", "desist", "infringe", "violation",
      "unauthorized"]),
   ("notice".toList, toCL ["notice", "notify", "inform", "advise", "aware"]),
   ("opinion".toList, toCL ["opinion", "analysis", "recommend", "advise",
      "counsel"])]

/-- The `motion_types` sub-category table of `_identify_subcategories`. -/
def motion_types : List (List Char × List (List Char)) :=
  [("summary_judgment".toList, toCL ["summary judgment", "no genuine issue"]),
   ("dismiss".toList, toCL ["motion to dismiss", "12(b)(6)",
      "failure to state"]),
   ("compel".toList, toCL ["motion to compel", "discovery",
      "interrogatories"]),
   ("preliminary_injunction".toList, toCL ["preliminary injunction",
      "irreparable harm", "balance of hardships"])]

/-- `InstrumentClassifier._identify_subcategories`. -/
def identify_subcategories (text : List Char) (doc_type : DocumentType) :
    List (List Char) :=
  let text_lower := lowerText text
  let pick := fun (table : List (List Char × List (List Char))) =>
    (table.filter fun e => e.2.any fun kw => containsSub kw text_lower).map
      Prod.fst
  match doc_type with
  | .contract => pick contract_types
  | .letter => pick letter_types
  | .motion => pick motion_types
  | _ => []

/-- A document text whose winning score stays below the contract
threshold (used to witness the unknown-degradation claim). -/
def demoLowScoreText : List Char := "whereas".toList

/-- A document text on which `contract` wins above threshold. -/
def demoContractText : List Char :=
  ("agreement contract hereby whereas consideration parties covenant " ++
   "this agreement enter into binding agreement terms and conditions " ++
   "now therefore").toList

/-- A document text on which `agreement` wins above threshold. -/
def demoAgreementText : List Char :=
  ("agreement understand acknowledge mutual parties undertake " ++
   "mutual agreement parties agree understanding between").toList

/-- A document text on which `affidavit` wins above threshold. -/
def demoAffidavitText : List Char :=
  ("affidavit sworn statement depose under oath affirm swear under " ++
   "penalty notary public being duly sworn subscribed and sworn").toList

/-- A document text on which `letter` wins above threshold. -/
def demoLetterText : List Char :=
  ("dear sir dear madam to whom it may concern yours sincerely " ++
   "regards correspondence letter").toList

/-- A document text on which `motion` wins above threshold. -/
def demoMotionText : List Char :=
  ("motion court honorable court petition request relief plaintiff " ++
   "defendant respectfully moves motion for comes now wherefore").toList

/-- A document text on which `brief` wins above threshold. -/
def demoBriefText : List Char :=
  ("brief argument court case precedent statute holding reasoning " ++
   "statement of the case summary of argument table of authorities").toList

/-- A document text on which `complaint` wins above threshold. -/
def demoComplaintText : List Char :=
  ("complaint plaintiff alleges defendant jurisdiction and venue " ++
   "cause of action damages comes now prayer for relief " ++
   "jury trial demanded").toList

/-- `InstrumentClassifier._classify_document` (the
`classification_features` metadata entry is purely diagnostic and is
not embedded; `all_scores` is). -/
def classify_document (text : List Char) : Classification :=
  let scores := typeScores text
  let best := bestType scores
  { document_type :=
      if best.2 ≥ ruleThreshold best.1 then best.1 else .unknown
    confidence := best.2
    sub_categories := identify_subcategories text best.1
    all_scores := scores }

/-! ## DocumentAnalyzer orchestrator (`document_analyzer.py`)

The orchestrator is embedded parametrically in its three component
analyzers (mirroring the `self.classifier` / `self.contradiction_detector`
/ `self.remedy_compiler` attributes): a component call either returns an
`AnalysisResult` or raises, which is modelled as `Except`.  Python
object identity for `AnalysisResult` is modelled with an explicit heap:
`analyze` returns a heap index, and the cache maps keys to heap
indices.  Two references alias exactly when the indices are equal.
Omitted as claim-irrelevant diagnostics: timestamps, processing times,
the textual analysis report content (only its presence is tracked), the
`cache_hit_time` string, and the document-complexity metadata score. -/

/-- Metadata dictionaries (`Dict[str, Any]` restricted to the
string-valued keys the orchestrator reads and the cache serializes). -/
abbrev Metadata := List (String × String)

/-- The entries the orchestrator writes into `AnalysisResult.metadata`. -/
structure ResultMetadata where
  cachedResult : Bool := false
  analysisComponents : Option (Bool × Bool × Bool) := none
  integrationMethodParallel : Option Bool := none
  totalIssuesFound : Option Nat := none
  totalRemediesSuggested : Option Nat := none
  hasAnalysisReport : Bool := false
deriving DecidableEq, Repr

/-- The `AnalysisResult` dataclass as the orchestrator populates it
(uuid and timestamps omitted). -/
structure AnalysisResultV where
  document_id : String := ""
  analyzer_type : String := ""
  classification : Option Classification := none
  issues : List LegalIssue := []
  remedies : List Remedy := []
  confidence_score : ℚ := 0
  tokens_analyzed : Nat := 0
  status : String := "completed"
  error_message : Option String := none
  metadata : ResultMetadata := {}
deriving DecidableEq, Repr

/-- The default-initialized `AnalysisResult`. -/
def emptyResult : AnalysisResultV := {}

/-- The three component analyzers the orchestrator holds.  The remedy
compiler receives the `detected_issues` entry the orchestrator adds to
its metadata as an explicit argument. -/
structure Components where
  classifier : List Char → Option Metadata → Except String AnalysisResultV
  contradiction_detector :
    List Char → Option Metadata → Except String AnalysisResultV
  remedy_compiler :
    List Char → Option Metadata → List LegalIssue →
      Except String AnalysisResultV

/-- The orchestrator configuration flags (`DocumentAnalyzer.__init__`). -/
structure AnalyzerConfig where
  enable_classification : Bool := true
  enable_contradiction_detection : Bool := true
  enable_remedy_generation : Bool := true
  parallel_processing : Bool := true
  enable_caching : Bool := true
  max_document_size : Nat := 10485760
deriving DecidableEq, Repr

/-- `BaseAnalyzer.validate_input`: reject empty/whitespace-only text
and text whose UTF-8 encoding exceeds the configured byte ceiling. -/
def validate_input (cfg : AnalyzerConfig) (text : List Char) : Bool :=
  !(text.isEmpty || text.all isSpaceChar) &&
    (text.map Char.utf8Size).sum ≤ cfg.max_document_size

/-- `len(document_text.split())`: number of maximal non-whitespace runs. -/
def countWords : List Char → Bool → Nat
  | [], _ => 0
  | c :: cs, inWord =>
    if isSpaceChar c then countWords cs false
    else (if inWord then 0 else 1) + countWords cs true

/-- The issues the orchestrator seeds remedy generation with:
`results["contradiction_detection"].issues` when that component
produced a result, else `[]`. -/
def detectedIssues (results : List (String × Option AnalysisResultV)) :
    List LegalIssue :=
  match lookupAssoc "contradiction_detection" results with
  | some (some res) => res.issues
  | _ => []

/-- `DocumentAnalyzer._run_sequential_analysis`: run each enabled
component in turn, converting a raised exception into a `None` entry,
then run remedy compilation seeded with the detected issues. -/
def run_sequential_analysis (cfg : AnalyzerConfig) (comps : Components)
    (text : List Char) (meta : Option Metadata) :
    List (String × Option AnalysisResultV) :=
  let r1 : List (String × Option AnalysisResultV) :=
    if cfg.enable_classification then
      [("classification", (comps.classifier text meta).toOption)]
    else []
  let r2 :=
    if cfg.enable_contradiction_detection then
      r1 ++ [("contradiction_detection",
        (comps.contradiction_detector text meta).toOption)]
    else r1
  if cfg.enable_remedy_generation then
    r2 ++ [("remedy_generation",
      (comps.remedy_compiler text meta (detectedIssues r2)).toOption)]
  else r2

/-- `DocumentAnalyzer._run_parallel_analysis`: the classification and
contradiction tasks are gathered with `return_exceptions=True` (an
exception becomes a `None` entry, in task-insertion order), then remedy
compilation runs downstream exactly as in the sequential mode. -/
def run_parallel_analysis (cfg : AnalyzerConfig) (comps : Components)
    (text : List Char) (meta : Option Metadata) :
    List (String × Option AnalysisResultV) :=
  let tasks : List (String × Option AnalysisResultV) :=
    (if cfg.enable_classification then
      [("classification", (comps.classifier text meta).toOption)]
    else []) ++
    (if cfg.enable_contradiction_detection then
      [("contradiction_detection",
        (comps.contradiction_detector text meta).toOption)]
    else [])
  if cfg.enable_remedy_generation then
    tasks ++ [("remedy_generation",
      (comps.remedy_compiler text meta (detectedIssues tasks)).toOption)]
  else tasks

/-- The `weights` dict of `_calculate_overall_confidence`. -/
def overallWeights : List (String × ℚ) :=
  [("classification", 0.3), ("contradiction_detection", 0.4),
   ("remedy_generation", 0.3)]

/-- `weights.get(component, 0.2)`. -/
def componentWeight (name : String) : ℚ :=
  match lookupAssoc name overallWeights with
  | some w => w
  | none => 0.2

/-- `DocumentAnalyzer._calculate_overall_confidence`: accumulate the
weighted confidences of the components that produced a result with a
positive confidence score, then divide by the accumulated weight
(0.5 when nothing qualified). -/
def calculate_overall_confidence
    (analysis_results : List (String × Option AnalysisResultV)) : ℚ :=
  let folded := analysis_results.foldl
    (fun acc e =>
      match e.2 with
      | some r =>
          if r.confidence_score > 0 then
            (acc.1 + r.confidence_score * componentWeight e.1,
             acc.2 + componentWeight e.1)
          else acc
      | none => acc)
    ((0 : ℚ), (0 : ℚ))
  if folded.2 > 0 then folded.1 / folded.2 else 0.5

/-- `analysis_results.get(name) is not None`. -/
def producedResult (name : String)
    (results : List (String × Option AnalysisResultV)) : Bool :=
  match lookupAssoc name results with
  | some (some _) => true
  | _ => false

/-- `DocumentAnalyzer._integrate_analysis_results`. -/
def integrate_analysis_results (cfg : AnalyzerConfig)
    (base : AnalysisResultV)
    (analysis_results : List (String × Option AnalysisResultV)) :
    AnalysisResultV :=
  let b1 :=
    match lookupAssoc "classification" analysis_results with
    | some (some cr) =>
        let b := { base with classification := cr.classification }
        match b.classification with
        | some c =>
            { b with confidence_score := max b.confidence_score c.confidence }
        | none => b
    | _ => base
  let b2 :=
    match lookupAssoc "contradiction_detection" analysis_results with
    | some (some dr) =>
        let b := { b1 with issues := b1.issues ++ dr.issues }
        if dr.confidence_score > 0 then
          { b with
            confidence_score := max b.confidence_score dr.confidence_score }
        else b
    | _ => b1
  let b3 :=
    match lookupAssoc "remedy_generation" analysis_results with
    | some (some rr) => { b2 with remedies := b2.remedies ++ rr.remedies }
    | _ => b2
  let b4 := { b3 with
    confidence_score := calculate_overall_confidence analysis_results }
  { b4 with metadata := { b4.metadata with
      analysisComponents := some
        (producedResult "classification" analysis_results,
         producedResult "contradiction_detection" analysis_results,
         producedResult "remedy_generation" analysis_results)
      integrationMethodParallel := some cfg.parallel_processing
      totalIssuesFound := some b4.issues.length
      totalRemediesSuggested := some b4.remedies.length } }

/-- `DocumentAnalyzer._generate_analysis_report`: attaches the report to
the result metadata (the report text itself is diagnostic prose that no
claim touches; only its presence is tracked). -/
def generate_analysis_report (r : AnalysisResultV) : AnalysisResultV :=
  { r with metadata := { r.metadata with hasAnalysisReport := true } }

/-- The metadata keys `_generate_cache_key` retains. -/
def cacheRelevantKeys : List String :=
  ["document_type", "jurisdiction", "version"]

/-- `DocumentAnalyzer._generate_cache_key`.  The Python code hashes
`text + json.dumps(filtered_metadata, sort_keys=True)` with MD5 when
the metadata dict is truthy (non-`None` and non-empty).  MD5 is a fixed
deterministic function of that content and the serialization is
injective on string-valued dicts, so the key is embedded as the content
itself: the text paired with the key-sorted filtered metadata (`none`
when the metadata dict was falsy).  Key equality in the embedding is
content equality, which is what every cache claim uses. -/
def generate_cache_key (text : List Char) (meta : Option Metadata) :
    List Char × Option (List (String × String)) :=
  (text,
    match meta with
    | some m =>
        if m.isEmpty then none
        else some ((m.filter fun e => e.1 ∈ cacheRelevantKeys).mergeSort
          fun a b => decide (a.1 ≤ b.1))
    | none => none)

/-- The orchestrator's mutable state: the heap of `AnalysisResult`
objects and the `_analysis_cache` dict mapping keys to heap indices. -/
structure AnalyzerState where
  heap : List AnalysisResultV := []
  cache : List ((List Char × Option (List (String × String))) × Nat) := []
deriving DecidableEq, Repr

/-- The in-place metadata mutation the cache-hit path performs on the
stored result (`cached_result = True`; the `cache_hit_time` timestamp
is omitted). -/
def markCachedHit (r : AnalysisResultV) : AnalysisResultV :=
  { r with metadata := { r.metadata with cachedResult := true } }

/-- The per-call analysis pipeline on a cache miss: base result,
component runs (parallel or sequential), integration, report, and the
final `completed` status.  (The code stores the result in the cache
just before setting `completed_at`/`status`; since the cached and the
returned object are one heap cell, the completed version is what both
the cache and the caller observe, which is what this definition
builds.) -/
def freshResult (cfg : AnalyzerConfig) (comps : Components)
    (text : List Char) (meta : Option Metadata) : AnalysisResultV :=
  let base : AnalysisResultV := {
    document_id := (meta.bind (lookupAssoc "document_id")).getD ""
    analyzer_type := "DocumentAnalyzer"
    tokens_analyzed := countWords text false }
  let analysis_results :=
    if cfg.parallel_processing then
      run_parallel_analysis cfg comps text meta
    else
      run_sequential_analysis cfg comps text meta
  let integrated := integrate_analysis_results cfg base analysis_results
  { generate_analysis_report integrated with status := "completed" }

/-- `DocumentAnalyzer.analyze`: validate, consult the cache (on a hit,
mutate the stored object's metadata in place and return that same
object), otherwise run the pipeline, append the result to the heap and
cache its index.  A validation failure raises, modelled as `.error`. -/
def analyze (cfg : AnalyzerConfig) (comps : Components)
    (st : AnalyzerState) (text : List Char) (meta : Option Metadata) :
    Except String (Nat × AnalyzerState) :=
  if validate_input cfg text = false then
    .error "Document analysis failed: invalid input"
  else
    let key := generate_cache_key text meta
    match (if cfg.enable_caching then lookupAssoc key st.cache else none) with
    | some ref =>
        .ok (ref, { st with
          heap := st.heap.set ref (markCachedHit (st.heap.getD ref emptyResult)) })
    | none =>
        let final := freshResult cfg comps text meta
        .ok (st.heap.length,
          { heap := st.heap ++ [final]
            cache :=
              if cfg.enable_caching then (key, st.heap.length) :: st.cache
              else st.cache })

/-- A well-formed orchestrator state: every cached index points into
the heap (always true of states the orchestrator itself builds). -/
def WFState (st : AnalyzerState) : Prop :=
  ∀ e ∈ st.cache, e.2 < st.heap.length

/-! Spec-side definitions for the overall-confidence refinement claim. -/

/-- Modelled from the spec's words for claim C9, as stated: the overall
confidence is the weighted blend (classification 0.3, contradiction
0.4, remedy 0.3) renormalized over only the components that actually
produced a result. -/
def specOverallConfidence (c d r : Option AnalysisResultV) : ℚ :=
  let picked : List (ℚ × ℚ) :=
    ([((0.3 : ℚ), c), ((0.4 : ℚ), d), ((0.3 : ℚ), r)]).filterMap fun e =>
      match e.2 with
      | some res => some (e.1, res.confidence_score)
      | none => none
  if (picked.map Prod.fst).sum > 0 then
    (picked.map fun e => e.2 * e.1).sum / (picked.map Prod.fst).sum
  else 0.5

/-- The amended C9 rule: the weighted blend renormalized over only the
components that produced a result with a positive confidence score
(0.5 when none did). -/
def specOverallConfidencePos (c d r : Option AnalysisResultV) : ℚ :=
  let picked : List (ℚ × ℚ) :=
    ([((0.3 : ℚ), c), ((0.4 : ℚ), d), ((0.3 : ℚ), r)]).filterMap fun e =>
      match e.2 with
      | some res =>
          if res.confidence_score > 0 then some (e.1, res.confidence_score)
          else none
      | none => none
  if (picked.map Prod.fst).sum > 0 then
    (picked.map fun e => e.2 * e.1).sum / (picked.map Prod.fst).sum
  else 0.5

/-- Demonstration components: a classifier, a detector and a remedy
compiler that always succeed with fixed confidences. -/
def demoComps : Components where
  classifier := fun _ _ => .ok { emptyResult with
    classification := some { document_type := .contract, confidence := 1/2 }
    confidence_score := 1/2 }
  contradiction_detector := fun _ _ => .ok { emptyResult with
    confidence_score := 0.95 }
  remedy_compiler := fun _ _ _ => .ok { emptyResult with
    remedies := [demoRemedyA]
    confidence_score := 0.8 }

/-- Demonstration components whose contradiction detector always
raises. -/
def demoFailingComps : Components :=
  { demoComps with
    contradiction_detector := fun _ _ => .error "detection failed" }

/-- Default orchestrator configuration (all components enabled,
parallel processing and caching on). -/
def demoCfg : AnalyzerConfig := {}

/-- A small valid document text. -/
def demoDocText : List Char := "a shall pay".toList

/-- A state whose cache already maps the demo document's key to the
heap cell 0. -/
def demoCachedState : AnalyzerState :=
  { heap := [emptyResult]
    cache := [(generate_cache_key demoDocText none, 0)] }

/-- First demo `analyze` call on the empty state. -/
def demoRun1 : Except String (Nat × AnalyzerState) :=
  analyze demoCfg demoComps {} demoDocText none

/-- State after the first demo call. -/
def demoState1 : AnalyzerState :=
  ((demoRun1.toOption).map Prod.snd).getD {}

/-- Second demo `analyze` call (identical text and metadata). -/
def demoRun2 : Except String (Nat × AnalyzerState) :=
  analyze demoCfg demoComps demoState1 demoDocText none

/-- State after the second demo call. -/
def demoState2 : AnalyzerState :=
  ((demoRun2.toOption).map Prod.snd).getD {}

/-- First demo metadata dict (document `doc-1`). -/
def demoMeta1 : Metadata :=
  [("document_id", "doc-1"), ("jurisdiction", "CA")]

/-- Second demo metadata dict: same cache-relevant keys, different
`document_id`. -/
def demoMeta2 : Metadata :=
  [("document_id", "doc-2"), ("jurisdiction", "CA")]

/-- A truthy metadata dict carrying only a cache-irrelevant key (it
agrees with the absent metadata `none` on all three relevant keys). -/
def demoMetaC10 : Metadata := [("document_id", "doc-2")]

/-- Demo `analyze` call with truthy metadata after a first call with
absent metadata on the same text. -/
def demoRunC10 : Except String (Nat × AnalyzerState) :=
  analyze demoCfg demoComps demoState1 demoDocText (some demoMetaC10)

/-- State after the truthy-metadata demo call. -/
def demoStateC10 : AnalyzerState :=
  ((demoRunC10.toOption).map Prod.snd).getD {}

end LocalAgentCore

namespace LocalAgentCore

/-- C7: when the contradiction detector extracts zero issues, its
confidence score is exactly `0.95`, whatever the token count. -/
theorem confidence_score_no_issues (token_count : Nat) :
    calculate_confidence_score [] token_count = 0.95 := rfl

/-- If some still-unprocessed match has its key in the dict with the
opposite polarity, the loop emits a conflict for one of the matches. -/
theorem aux_conflict_of_lookup :
    ∀ (ms : List ObligationMatch) (d : List (List Char × Bool))
      (m : ObligationMatch) (b : Bool),
      m ∈ ms → lookupAssoc m.key d = some b → b ≠ m.negation →
      ∃ m' ∈ ms, mkTermConflictIssue m' ∈ detectTermConflictsAux ms d := by
  intro ms
  induction ms with
  | nil => intro d m b hm _ _; simp at hm
  | cons h rest ih =>
    intro d m b hm hl hb
    rcases List.mem_cons.mp hm with rfl | hm'
    · refine ⟨m, List.mem_cons_self _ _, ?_⟩
      simp only [detectTermConflictsAux, hl]
      simp [hb]
    · cases hcase : lookupAssoc h.key d with
      | some b0 =>
        obtain ⟨m', hm'', hin⟩ := ih d m b hm' hl hb
        refine ⟨m', List.mem_cons_of_mem _ hm'', ?_⟩
        simp only [detectTermConflictsAux, hcase]
        by_cases hb0 : b0 ≠ h.negation
        · rw [if_pos hb0]
          exact List.mem_cons_of_mem _ hin
        · rw [if_neg hb0]
          exact hin
      | none =>
        have hne : m.key ≠ h.key := by
          intro he
          rw [he, hcase] at hl
          exact Option.noConfusion hl
        have hl' : lookupAssoc m.key ((h.key, h.negation) :: d) = some b := by
          simp only [lookupAssoc, if_neg hne]
          exact hl
        obtain ⟨m', hm'', hin⟩ := ih _ m b hm' hl' hb
        refine ⟨m', List.mem_cons_of_mem _ hm'', ?_⟩
        simp only [detectTermConflictsAux, hcase]
        exact hin

/-- If two matches in the list share the dict key but have opposite
negation polarity, the loop emits a conflict for one of the matches,
whatever the starting dict. -/
theorem aux_conflict_of_pair :
    ∀ (ms : List ObligationMatch) (d : List (List Char × Bool))
      (i j : Nat) (m1 m2 : ObligationMatch), i < j →
      ms.get? i = some m1 → ms.get? j = some m2 →
      m1.key = m2.key → m1.negation ≠ m2.negation →
      ∃ m' ∈ ms, mkTermConflictIssue m' ∈ detectTermConflictsAux ms d := by
  intro ms
  induction ms with
  | nil => intro d i j m1 m2 _ h1 _ _ _; simp at h1
  | cons h rest ih =>
    intro d i j m1 m2 hij h1 h2 hkey hneg
    obtain ⟨j', rfl⟩ : ∃ j', j = j' + 1 :=
      ⟨j - 1, (Nat.succ_pred_eq_of_pos (Nat.lt_of_le_of_lt (Nat.zero_le _) hij)).symm⟩
    rw [List.get?_cons_succ] at h2
    have hm2 : m2 ∈ rest := List.get?_mem h2
    cases i with
    | zero =>
      rw [List.get?_cons_zero] at h1
      have hh : h = m1 := Option.some.inj h1
      subst hh
      cases hcase : lookupAssoc h.key d with
      | some b =>
        by_cases hb : b ≠ h.negation
        · refine ⟨h, List.mem_cons_self _ _, ?_⟩
          simp only [detectTermConflictsAux, hcase]
          simp [hb]
        · push_neg at hb
          have hl2 : lookupAssoc m2.key d = some b := hkey ▸ hcase
          have hb2 : b ≠ m2.negation := by rw [hb]; exact hneg
          obtain ⟨m', hm'', hin⟩ :=
            aux_conflict_of_lookup rest d m2 b hm2 hl2 hb2
          refine ⟨m', List.mem_cons_of_mem _ hm'', ?_⟩
          simp only [detectTermConflictsAux, hcase]
          simp only [hb, ne_eq, not_true_eq_false, if_false, ite_self]
          exact hin
      | none =>
        have hl2 : lookupAssoc m2.key ((h.key, h.negation) :: d) =
            some h.negation := by
          have he : m2.key = h.key := hkey.symm
          simp [lookupAssoc, he]
        obtain ⟨m', hm'', hin⟩ :=
          aux_conflict_of_lookup rest _ m2 h.negation hm2 hl2 hneg
        refine ⟨m', List.mem_cons_of_mem _ hm'', ?_⟩
        simp only [detectTermConflictsAux, hcase]
        exact hin
    | succ i' =>
      rw [List.get?_cons_succ] at h1
      have hij' : i' < j' := Nat.lt_of_succ_lt_succ hij
      cases hcase : lookupAssoc h.key d with
      | some b0 =>
        obtain ⟨m', hm'', hin⟩ := ih d i' j' m1 m2 hij' h1 h2 hkey hneg
        refine ⟨m', List.mem_cons_of_mem _ hm'', ?_⟩
        simp only [detectTermConflictsAux, hcase]
        by_cases hb0 : b0 ≠ h.negation
        · rw [if_pos hb0]
          exact List.mem_cons_of_mem _ hin
        · rw [if_neg hb0]
          exact hin
      | none =>
        obtain ⟨m', hm'', hin⟩ :=
          ih ((h.key, h.negation) :: d) i' j' m1 m2 hij' h1 h2 hkey hneg
        refine ⟨m', List.mem_cons_of_mem _ hm'', ?_⟩
        simp only [detectTermConflictsAux, hcase]
        exact hin

/-- C1 (amended): if two obligation statements in the text share the
same (entity, action) key with opposite negation polarity, the detector
emits at least one CONTRADICTION issue with severity high and
confidence 0.9 — but its location is the single character span of one
(the later-processed) conflicting statement, not both statements'
locations. -/
theorem term_conflict_detected (text : List Char) (i j : Nat)
    (m1 m2 : ObligationMatch) (hij : i < j)
    (h1 : (obligationMatches text).get? i = some m1)
    (h2 : (obligationMatches text).get? j = some m2)
    (hent : m1.entity = m2.entity) (hact : m1.action = m2.action)
    (hneg : m1.negation ≠ m2.negation) :
    ∃ issue ∈ detect_term_conflicts text,
      issue.type = .contradiction ∧ issue.severity = .high ∧
      issue.confidence = 0.9 ∧
      ∃ m ∈ obligationMatches text,
        issue.location = .span m.start m.stop := by
  have hkey : m1.key = m2.key := by
    simp only [ObligationMatch.key, hent, hact]
  obtain ⟨m', hm', hin⟩ :=
    aux_conflict_of_pair (obligationMatches text) [] i j m1 m2 hij h1 h2
      hkey hneg
  exact ⟨mkTermConflictIssue m', hin, rfl, rfl, rfl, m', hm', rfl⟩

/-- Witness for `term_conflict_detected`: the two conflicting
obligation statements of `"a shall pay. a shall not pay."`. -/
theorem term_conflict_detected_witness :
    ∃ issue ∈ detect_term_conflicts "a shall pay. a shall not pay.".toList,
      issue.type = .contradiction ∧ issue.severity = .high ∧
      issue.confidence = 0.9 ∧
      ∃ m ∈ obligationMatches "a shall pay. a shall not pay.".toList,
        issue.location = .span m.start m.stop :=
  term_conflict_detected _ 0 1
    ⟨['a'], false, ['p', 'a', 'y'], 0, 11, "obligation".toList⟩
    ⟨['a'], true, ['p', 'a', 'y'], 13, 28, "obligation".toList⟩
    (by decide) (by decide) (by decide) rfl rfl (by decide)

/-- C1 (counterexample to the claim as stated): on
`"a shall pay. a shall not pay."` the two obligation statements span
characters (0,11) and (13,28) and have opposite polarity, and a
CONTRADICTION issue is emitted — but no emitted issue's location
references both statements' spans: the single emitted issue carries
only the second statement's span. -/
theorem term_conflict_location_counterexample :
    (obligationMatches "a shall pay. a shall not pay.".toList).map
        (fun m => (m.entity, m.negation, m.action, m.start, m.stop)) =
      [(['a'], false, ['p', 'a', 'y'], 0, 11),
       (['a'], true, ['p', 'a', 'y'], 13, 28)] ∧
    (detect_term_conflicts "a shall pay. a shall not pay.".toList).map
        (fun i => i.location) = [.span 13 28] ∧
    ¬ ∃ issue ∈ detect_term_conflicts "a shall pay. a shall not pay.".toList,
        issue.type = .contradiction ∧ issue.severity = .high ∧
        issue.confidence = 0.9 ∧
        (0, 11) ∈ issue.location.spans ∧
        (13, 28) ∈ issue.location.spans := by
  have hdet : detect_term_conflicts "a shall pay. a shall not pay.".toList =
      [mkTermConflictIssue
        ⟨['a'], true, ['p', 'a', 'y'], 13, 28, "obligation".toList⟩] := rfl
  refine ⟨by decide, by rw [hdet]; rfl, ?_⟩
  rintro ⟨issue, hmem, -, -, -, h011, -⟩
  rw [hdet, List.mem_singleton] at hmem
  subst hmem
  simp [mkTermConflictIssue, IssueLocation.spans] at h011

/-- Title-filter characterization of the deduplication loop: for every
title, the loop keeps exactly the first occurrence (none if the title
was already seen). -/
theorem dedupByTitle_filter (rs : List Remedy) (seen : List String)
    (t : String) :
    (dedupByTitle rs seen).filter (fun r => r.title == t) =
      if t ∈ seen then [] else
        (rs.filter (fun r => r.title == t)).take 1 := by
  induction rs generalizing seen with
  | nil => simp [dedupByTitle]
  | cons r rs ih =>
    simp only [dedupByTitle]
    by_cases hseen : r.title ∈ seen
    · rw [if_pos hseen, ih]
      by_cases ht : t ∈ seen
      · rw [if_pos ht, if_pos ht]
      · have hrt : (r.title == t) = false := by
          refine beq_eq_false_iff_ne.mpr ?_
          intro he
          exact ht (he ▸ hseen)
        rw [if_neg ht, if_neg ht, List.filter_cons, hrt]
        simp
    · rw [if_neg hseen, List.filter_cons]
      by_cases hrt : r.title = t
      · subst hrt
        have hseen' : r.title ∈ r.title :: seen := List.mem_cons_self _ _
        rw [ih, if_pos hseen']
        simp [if_neg hseen, List.filter_cons]
      · have hrt' : (r.title == t) = false := beq_eq_false_iff_ne.mpr hrt
        rw [hrt', ih]
        by_cases ht : t ∈ seen
        · rw [if_pos (List.mem_cons_of_mem _ ht), if_pos ht]
          simp
        · have ht' : t ∉ r.title :: seen := by
            simp only [List.mem_cons, not_or]
            exact ⟨fun he => hrt he.symm, ht⟩
          rw [if_neg ht', if_neg ht, List.filter_cons, hrt']
          simp

/-- The comparison used by `_deduplicate_and_prioritize` is transitive. -/
theorem priorityLE_trans (a b c : Remedy)
    (hab : decide (priority_order a.priority ≤ priority_order b.priority) = true)
    (hbc : decide (priority_order b.priority ≤ priority_order c.priority) = true) :
    decide (priority_order a.priority ≤ priority_order c.priority) = true :=
  decide_eq_true (Nat.le_trans (of_decide_eq_true hab) (of_decide_eq_true hbc))

/-- The comparison used by `_deduplicate_and_prioritize` is total. -/
theorem priorityLE_total (a b : Remedy) :
    (decide (priority_order a.priority ≤ priority_order b.priority) ||
     decide (priority_order b.priority ≤ priority_order a.priority)) = true := by
  rcases Nat.le_total (priority_order a.priority) (priority_order b.priority) with h | h
  · simp [h]
  · simp [h]

/-- C6: the deduplicate-and-prioritize step of the RemedyCompiler
(1) keeps exactly the first occurrence of each remedy title,
(2) returns a list on which the priority rank (critical < high <
medium < low < info) never decreases, and
(3) sorts stably: any two deduplicated remedies in rank order keep
their relative order. -/
theorem remedy_dedup_sort_spec (remedies : List Remedy) :
    (∀ t : String,
      (deduplicate_and_prioritize remedies).filter (fun r => r.title == t) =
        (remedies.filter (fun r => r.title == t)).take 1) ∧
    (deduplicate_and_prioritize remedies).Pairwise
      (fun a b => priority_order a.priority ≤ priority_order b.priority) ∧
    (∀ a b : Remedy,
      priority_order a.priority ≤ priority_order b.priority →
      [a, b].Sublist (dedupByTitle remedies []) →
      [a, b].Sublist (deduplicate_and_prioritize remedies)) := by
  refine ⟨?_, ?_, ?_⟩
  · intro t
    have hperm : ((deduplicate_and_prioritize remedies).filter
          (fun r => r.title == t)).Perm
        ((dedupByTitle remedies []).filter (fun r => r.title == t)) :=
      (List.mergeSort_perm (dedupByTitle remedies []) _).filter _
    rw [dedupByTitle_filter remedies [] t, if_neg (List.not_mem_nil t)]
      at hperm
    cases hcase : (remedies.filter (fun r => r.title == t)).take 1 with
    | nil =>
        rw [hcase] at hperm
        exact List.perm_nil.mp hperm
    | cons x xs =>
        have hx : xs = [] := by
          have hlen := congrArg List.length hcase
          simp only [List.length_take, List.length_cons] at hlen
          have : xs.length = 0 := by omega
          exact List.length_eq_zero.mp this
        subst hx
        rw [hcase] at hperm
        exact List.perm_singleton.mp hperm
  · have h := List.sorted_mergeSort priorityLE_trans priorityLE_total
      (dedupByTitle remedies [])
    exact h.imp (fun hab => of_decide_eq_true hab)
  · intro a b hab hsub
    exact List.pair_sublist_mergeSort priorityLE_trans priorityLE_total
      (decide_eq_true hab) hsub

/-- Witness for `remedy_dedup_sort_spec` on a concrete remedy list with
a duplicated title and a priority tie. -/
theorem remedy_dedup_sort_spec_witness :
    ((deduplicate_and_prioritize demoRemedies).filter
        (fun r => r.title == "A") =
      (demoRemedies.filter (fun r => r.title == "A")).take 1) ∧
    (deduplicate_and_prioritize demoRemedies).Pairwise
      (fun a b => priority_order a.priority ≤ priority_order b.priority) ∧
    [demoRemedyA, demoRemedyB].Sublist (deduplicate_and_prioritize demoRemedies) :=
  ⟨(remedy_dedup_sort_spec demoRemedies).1 "A",
   (remedy_dedup_sort_spec demoRemedies).2.1,
   (remedy_dedup_sort_spec demoRemedies).2.2 demoRemedyA demoRemedyB
     (by decide)
     (((List.nil_sublist [demoRemedyC]).cons₂ demoRemedyB).cons₂ demoRemedyA)⟩

/-- Keyword scores are non-negative. -/
theorem score_keywords_nonneg (tl : List Char) (kws : List (List Char)) :
    0 ≤ score_keywords tl kws := by
  unfold score_keywords
  split
  · exact le_refl 0
  · positivity

/-- Phrase scores are non-negative. -/
theorem score_phrases_nonneg (tl : List Char) (phs : List (List Char)) :
    0 ≤ score_phrases tl phs := by
  unfold score_phrases
  split
  · exact le_refl 0
  · positivity

/-- Pattern scores are non-negative. -/
theorem score_patterns_nonneg (text : List Char) (pats : List (List RAtom)) :
    0 ≤ score_patterns text pats := by
  unfold score_patterns
  exact le_min (by norm_num) (by positivity)

/-- Signature scores are non-negative. -/
theorem score_signatures_nonneg (tl : List Char) (dt : DocumentType) :
    0 ≤ score_signatures tl dt := by
  unfold score_signatures
  split
  · exact le_refl 0
  · split
    · exact le_refl 0
    · positivity

/-- Every per-type score is non-negative. -/
theorem typeScore_nonneg (text : List Char) (dt : DocumentType)
    (r : ClassificationRule) : 0 ≤ typeScore text dt r := by
  unfold typeScore
  refine le_min (by norm_num) ?_
  have h1 := score_keywords_nonneg (lowerText text) r.keywords
  have h2 := score_phrases_nonneg (lowerText text) r.phrases
  have h3 := score_patterns_nonneg text r.patterns
  have h4 := score_signatures_nonneg (lowerText text) dt
  have c : (0 : ℚ) ≤ 0.3 ∧ (0 : ℚ) ≤ 0.2 := by norm_num
  exact add_nonneg (add_nonneg (add_nonneg
    (mul_nonneg h1 c.1) (mul_nonneg h2 c.1))
    (mul_nonneg h3 c.2)) (mul_nonneg h4 c.2)

/-- Every per-type score is at most one. -/
theorem typeScore_le_one (text : List Char) (dt : DocumentType)
    (r : ClassificationRule) : typeScore text dt r ≤ 1 :=
  min_le_left _ _

/-- All entries of the scores dict are non-negative. -/
theorem typeScores_nonneg (text : List Char) :
    ∀ x ∈ typeScores text, 0 ≤ x.2 := by
  intro x hx
  simp only [typeScores] at hx
  obtain ⟨e, -, rfl⟩ := List.mem_map.mp hx
  exact typeScore_nonneg text e.1 e.2

/-- All entries of the scores dict are at most one. -/
theorem typeScores_le_one (text : List Char) :
    ∀ x ∈ typeScores text, x.2 ≤ 1 := by
  intro x hx
  simp only [typeScores] at hx
  obtain ⟨e, -, rfl⟩ := List.mem_map.mp hx
  exact typeScore_le_one text e.1 e.2

/-- The scores dict is never empty (the rules table has seven entries). -/
theorem typeScores_ne_nil (text : List Char) : typeScores text ≠ [] := by
  simp [typeScores, classification_rules]

/-- Python's `max(type_scores, key=type_scores.get)` returns an entry of
the dict (provided all scores are non-negative, which rules out the
empty-list sentinel). -/
theorem bestType_mem :
    ∀ (l : List (DocumentType × ℚ)), l ≠ [] → (∀ x ∈ l, 0 ≤ x.2) →
      bestType l ∈ l := by
  intro l
  induction l with
  | nil => intro h _; exact absurd rfl h
  | cons e rest ih =>
    intro _ hnn
    simp only [bestType]
    by_cases hgt : (bestType rest).2 > e.2
    · rw [if_pos hgt]
      cases hr : rest with
      | nil =>
          exfalso
          rw [hr] at hgt
          simp only [bestType] at hgt
          exact absurd (lt_of_le_of_lt (hnn e (List.mem_cons_self _ _)) hgt)
            (lt_irrefl 0)
      | cons f fs =>
          rw [← hr]
          exact List.mem_cons_of_mem _
            (ih (by rw [hr]; exact List.cons_ne_nil f fs)
              (fun x hx => hnn x (List.mem_cons_of_mem _ hx)))
    · rw [if_neg hgt]
      exact List.mem_cons_self _ _

/-- C3: the classification confidence is always in `[0,1]`, and when the
winning raw score is below the winning type's configured threshold the
returned `document_type` degrades to `unknown` while the losing score is
still reported as the confidence and among the diagnostic `all_scores`
(it is not discarded). -/
theorem classifier_confidence_spec (text : List Char) :
    0 ≤ (classify_document text).confidence ∧
    (classify_document text).confidence ≤ 1 ∧
    ((bestType (typeScores text)).2 <
        ruleThreshold (bestType (typeScores text)).1 →
      (classify_document text).document_type = .unknown ∧
      (classify_document text).confidence = (bestType (typeScores text)).2 ∧
      bestType (typeScores text) ∈ (classify_document text).all_scores) := by
  have hmem : bestType (typeScores text) ∈ typeScores text :=
    bestType_mem _ (typeScores_ne_nil text) (typeScores_nonneg text)
  have hconf : (classify_document text).confidence =
      (bestType (typeScores text)).2 := rfl
  refine ⟨?_, ?_, fun hlt => ⟨?_, hconf, ?_⟩⟩
  · rw [hconf]
    exact typeScores_nonneg text _ hmem
  · rw [hconf]
    exact typeScores_le_one text _ hmem
  · have hdt : (classify_document text).document_type =
        if (bestType (typeScores text)).2 ≥
            ruleThreshold (bestType (typeScores text)).1
        then (bestType (typeScores text)).1 else .unknown := rfl
    rw [hdt, if_neg (not_le.mpr hlt)]
  · exact hmem

unseal Rat.ofScientific Rat.mul Rat.add Rat.inv Rat.sub in
/-- Witness for `classifier_confidence_spec`: on the single-word
document `"whereas"` the best raw score (contract, 8/105) is below the
contract threshold 0.7, so the classifier returns `unknown` with the
losing score as confidence and in `all_scores`. -/
theorem classifier_confidence_spec_witness :
    ((bestType (typeScores demoLowScoreText)).2 <
      ruleThreshold (bestType (typeScores demoLowScoreText)).1) ∧
    (classify_document demoLowScoreText).document_type = .unknown ∧
    (classify_document demoLowScoreText).confidence =
      (bestType (typeScores demoLowScoreText)).2 ∧
    bestType (typeScores demoLowScoreText) ∈
      (classify_document demoLowScoreText).all_scores :=
  have hlt : (bestType (typeScores demoLowScoreText)).2 <
      ruleThreshold (bestType (typeScores demoLowScoreText)).1 := by decide
  ⟨hlt, (classifier_confidence_spec demoLowScoreText).2.2 hlt⟩

/-- C8 (counterexample to the claim as stated): `agreement` is a
candidate type of the rule table, yet the signature table defines no
signature set for it. -/
theorem classifier_signature_counterexample :
    (lookupAssoc DocumentType.agreement classification_rules).isSome = true ∧
    document_signatures DocumentType.agreement = none := ⟨rfl, rfl⟩

set_option maxRecDepth 200000 in
set_option maxHeartbeats 2000000 in
unseal Rat.ofScientific Rat.mul Rat.add Rat.inv Rat.sub in
/-- On the contract demo text the classifier returns `contract`. -/
theorem classifyDemoContract :
    (classify_document demoContractText).document_type = .contract := by
  decide

set_option maxRecDepth 200000 in
set_option maxHeartbeats 2000000 in
unseal Rat.ofScientific Rat.mul Rat.add Rat.inv Rat.sub in
/-- On the agreement demo text the classifier returns `agreement`. -/
theorem classifyDemoAgreement :
    (classify_document demoAgreementText).document_type = .agreement := by
  decide

set_option maxRecDepth 200000 in
set_option maxHeartbeats 2000000 in
unseal Rat.ofScientific Rat.mul Rat.add Rat.inv Rat.sub in
/-- On the affidavit demo text the classifier returns `affidavit`. -/
theorem classifyDemoAffidavit :
    (classify_document demoAffidavitText).document_type = .affidavit := by
  decide

set_option maxRecDepth 200000 in
set_option maxHeartbeats 2000000 in
unseal Rat.ofScientific Rat.mul Rat.add Rat.inv Rat.sub in
/-- On the letter demo text the classifier returns `letter`. -/
theorem classifyDemoLetter :
    (classify_document demoLetterText).document_type = .letter := by
  decide

set_option maxRecDepth 200000 in
set_option maxHeartbeats 2000000 in
unseal Rat.ofScientific Rat.mul Rat.add Rat.inv Rat.sub in
/-- On the motion demo text the classifier returns `motion`. -/
theorem classifyDemoMotion :
    (classify_document demoMotionText).document_type = .motion := by
  decide

set_option maxRecDepth 200000 in
set_option maxHeartbeats 2000000 in
unseal Rat.ofScientific Rat.mul Rat.add Rat.inv Rat.sub in
/-- On the brief demo text the classifier returns `brief`. -/
theorem classifyDemoBrief :
    (classify_document demoBriefText).document_type = .brief := by
  decide

set_option maxRecDepth 200000 in
set_option maxHeartbeats 2000000 in
unseal Rat.ofScientific Rat.mul Rat.add Rat.inv Rat.sub in
/-- On the complaint demo text the classifier returns `complaint`. -/
theorem classifyDemoComplaint :
    (classify_document demoComplaintText).document_type = .complaint := by
  decide

/-- C8 (amended): the rule table's candidates are exactly contract,
agreement, affidavit, letter, motion, brief and complaint; each
candidate has non-empty keyword, phrase and pattern lists; a signature
set exists only for contract, affidavit, motion, complaint and letter
(agreement and brief have none and always score 0 on the signature
component); every candidate receives a score on every input; and each
candidate can be returned as the winning document type. -/
theorem classifier_rule_table_spec :
    (classification_rules.map Prod.fst =
      [.contract, .agreement, .affidavit, .letter, .motion, .brief,
       .complaint]) ∧
    (classification_rules.map (fun e =>
        (e.2.keywords.isEmpty, e.2.phrases.isEmpty, e.2.patterns.isEmpty)) =
      List.replicate 7 (false, false, false)) ∧
    (classification_rules.map (fun e => (document_signatures e.1).isSome) =
      [true, false, true, true, true, false, true]) ∧
    (∀ text : List Char,
      (typeScores text).map Prod.fst = classification_rules.map Prod.fst) ∧
    (classify_document demoContractText).document_type = .contract ∧
    (classify_document demoAgreementText).document_type = .agreement ∧
    (classify_document demoAffidavitText).document_type = .affidavit ∧
    (classify_document demoLetterText).document_type = .letter ∧
    (classify_document demoMotionText).document_type = .motion ∧
    (classify_document demoBriefText).document_type = .brief ∧
    (classify_document demoComplaintText).document_type = .complaint := by
  refine ⟨rfl, rfl, rfl, ?_, classifyDemoContract, classifyDemoAgreement,
    classifyDemoAffidavit, classifyDemoLetter, classifyDemoMotion,
    classifyDemoBrief, classifyDemoComplaint⟩
  intro text
  simp [typeScores, List.map_map, Function.comp]

set_option maxHeartbeats 2000000 in
/-- C9 (amended): for the three-component results dict the orchestrator
builds, the overall confidence equals the weighted blend renormalized
over only the components that produced a result with a positive
confidence score (0.5 if none did). -/
theorem overall_confidence_renormalized (c d r : Option AnalysisResultV) :
    calculate_overall_confidence
      [("classification", c), ("contradiction_detection", d),
       ("remedy_generation", r)] = specOverallConfidencePos c d r := by
  have hwc : componentWeight "classification" = 0.3 := rfl
  have hwd : componentWeight "contradiction_detection" = 0.4 := rfl
  have hwr : componentWeight "remedy_generation" = 0.3 := rfl
  rcases c with _ | c <;> rcases d with _ | d <;> rcases r with _ | r <;>
    simp only [calculate_overall_confidence, specOverallConfidencePos,
      List.foldl, List.filterMap, hwc, hwd, hwr] <;>
    split_ifs <;>
    simp_all <;>
    first
    | rfl
    | linarith

unseal Rat.ofScientific Rat.mul Rat.add Rat.inv Rat.sub in
/-- C9 (counterexample to the claim as stated): with a classification
result of confidence 0 and a detection result of confidence 0.95, the
code excludes the zero-confidence component and returns 0.95, while the
spec's renormalization over all produced components would give 19/35. -/
theorem overall_confidence_counterexample :
    calculate_overall_confidence
      [("classification", some { emptyResult with confidence_score := 0 }),
       ("contradiction_detection",
        some { emptyResult with confidence_score := 0.95 }),
       ("remedy_generation", none)] = 0.95 ∧
    specOverallConfidence (some { emptyResult with confidence_score := 0 })
      (some { emptyResult with confidence_score := 0.95 }) none = 19 / 35 ∧
    (0.95 : ℚ) ≠ 19 / 35 := by
  refine ⟨by decide, by decide, by norm_num⟩

/-- `getD` after `set` at the written (in-range) index. -/
theorem getD_set_self {α : Type} (l : List α) (i : Nat) (a d : α)
    (h : i < l.length) : (l.set i a).getD i d = a := by
  rw [List.getD_eq_getElem?_getD, List.getElem?_set_self h]
  rfl

/-- `getD` of a freshly appended element. -/
theorem getD_concat_length {α : Type} (l : List α) (a d : α) :
    (l ++ [a]).getD l.length d = a := by
  rw [List.getD_eq_getElem?_getD, List.getElem?_concat_length]
  rfl

/-- A successful association-list lookup exhibits a member. -/
theorem lookupAssoc_mem {κ ν : Type} [DecidableEq κ] {k : κ} {v : ν} :
    ∀ {l : List (κ × ν)}, lookupAssoc k l = some v → (k, v) ∈ l := by
  intro l
  induction l with
  | nil => intro h; simp [lookupAssoc] at h
  | cons e rest ih =>
    intro h
    simp only [lookupAssoc] at h
    by_cases he : k = e.1
    · rw [if_pos he] at h
      have hv : v = e.2 := (Option.some.inj h).symm
      subst he
      subst hv
      exact List.mem_cons_self _ _
    · rw [if_neg he] at h
      exact List.mem_cons_of_mem _ (ih h)

/-- The cache-hit branch of `analyze`. -/
theorem analyze_hit (cfg : AnalyzerConfig) (comps : Components)
    (st : AnalyzerState) (text : List Char) (meta : Option Metadata)
    (ref : Nat) (hval : validate_input cfg text = true)
    (hcache : cfg.enable_caching = true)
    (href : lookupAssoc (generate_cache_key text meta) st.cache = some ref) :
    analyze cfg comps st text meta = .ok (ref, { st with
      heap := st.heap.set ref (markCachedHit (st.heap.getD ref emptyResult)) }) := by
  unfold analyze
  simp [hval, hcache, href]

/-- The cache-miss branch of `analyze`. -/
theorem analyze_miss (cfg : AnalyzerConfig) (comps : Components)
    (st : AnalyzerState) (text : List Char) (meta : Option Metadata)
    (hval : validate_input cfg text = true)
    (hmiss : (if cfg.enable_caching then
        lookupAssoc (generate_cache_key text meta) st.cache
      else none) = none) :
    analyze cfg comps st text meta = .ok (st.heap.length,
      { heap := st.heap ++ [freshResult cfg comps text meta]
        cache :=
          if cfg.enable_caching then
            (generate_cache_key text meta, st.heap.length) :: st.cache
          else st.cache }) := by
  unfold analyze
  simp only [hval]
  rw [if_neg (by simp)]
  rw [hmiss]

/-- The parallel and the sequential orchestration modes build the same
component-results dict (the embedding is deterministic). -/
theorem run_parallel_eq_sequential (cfg : AnalyzerConfig)
    (comps : Components) (text : List Char) (meta : Option Metadata) :
    run_parallel_analysis cfg comps text meta =
      run_sequential_analysis cfg comps text meta := by
  unfold run_parallel_analysis run_sequential_analysis
  cases cfg.enable_classification <;>
    cases cfg.enable_contradiction_detection <;> simp

/-- The classification entry of the sequential results dict. -/
theorem lookup_run_seq_classification (cfg : AnalyzerConfig)
    (comps : Components) (text : List Char) (meta : Option Metadata)
    (hcls : cfg.enable_classification = true) :
    lookupAssoc "classification" (run_sequential_analysis cfg comps text meta)
      = some (comps.classifier text meta).toOption := by
  unfold run_sequential_analysis
  rw [hcls]
  cases cfg.enable_contradiction_detection <;>
    cases cfg.enable_remedy_generation <;> simp [lookupAssoc]

/-- The contradiction-detection entry of the sequential results dict. -/
theorem lookup_run_seq_contradiction (cfg : AnalyzerConfig)
    (comps : Components) (text : List Char) (meta : Option Metadata)
    (hdet : cfg.enable_contradiction_detection = true) :
    lookupAssoc "contradiction_detection"
        (run_sequential_analysis cfg comps text meta)
      = some (comps.contradiction_detector text meta).toOption := by
  unfold run_sequential_analysis
  rw [hdet]
  cases cfg.enable_classification <;>
    cases cfg.enable_remedy_generation <;> simp [lookupAssoc]

/-- When classification produced a result and contradiction detection
did not, integration adopts the classification, leaves the issues list
untouched, and preserves the status. -/
theorem integrate_classification_issues (cfg : AnalyzerConfig)
    (base : AnalysisResultV) (rs : List (String × Option AnalysisResultV))
    (cres : AnalysisResultV)
    (hc : lookupAssoc "classification" rs = some (some cres))
    (hd : lookupAssoc "contradiction_detection" rs = some none) :
    (integrate_analysis_results cfg base rs).classification =
      cres.classification ∧
    (integrate_analysis_results cfg base rs).issues = base.issues ∧
    (integrate_analysis_results cfg base rs).status = base.status := by
  unfold integrate_analysis_results
  rw [hc, hd]
  cases hcc : cres.classification <;>
    rcases hr : lookupAssoc "remedy_generation" rs with _ | (_ | rr) <;>
    simp [hcc, hr]

/-- C4: if contradiction detection raises but classification succeeds,
`analyze` still returns a `completed` result with the classification
populated and no contradiction-derived issues. -/
theorem partial_failure_tolerated (cfg : AnalyzerConfig)
    (comps : Components) (st : AnalyzerState) (text : List Char)
    (meta : Option Metadata) (err : String) (cres : AnalysisResultV)
    (c : Classification)
    (hval : validate_input cfg text = true)
    (hmiss : (if cfg.enable_caching then
        lookupAssoc (generate_cache_key text meta) st.cache
      else none) = none)
    (hcls : cfg.enable_classification = true)
    (hdet : cfg.enable_contradiction_detection = true)
    (hfail : comps.contradiction_detector text meta = .error err)
    (hok : comps.classifier text meta = .ok cres)
    (hc : cres.classification = some c) :
    ∃ ref st2, analyze cfg comps st text meta = .ok (ref, st2) ∧
      (st2.heap.getD ref emptyResult).status = "completed" ∧
      (st2.heap.getD ref emptyResult).classification = some c ∧
      (st2.heap.getD ref emptyResult).issues = [] := by
  have hrs : (if cfg.parallel_processing then
      run_parallel_analysis cfg comps text meta
    else run_sequential_analysis cfg comps text meta) =
      run_sequential_analysis cfg comps text meta := by
    cases cfg.parallel_processing <;> simp [run_parallel_eq_sequential]
  have hlc := lookup_run_seq_classification cfg comps text meta hcls
  have hld := lookup_run_seq_contradiction cfg comps text meta hdet
  rw [hok] at hlc
  rw [hfail] at hld
  have hint := integrate_classification_issues cfg
    { document_id := (meta.bind (lookupAssoc "document_id")).getD ""
      analyzer_type := "DocumentAnalyzer"
      tokens_analyzed := countWords text false }
    (run_sequential_analysis cfg comps text meta) cres hlc hld
  have hfresh1 : (freshResult cfg comps text meta).status = "completed" := rfl
  have hfresh2 : (freshResult cfg comps text meta).classification = some c := by
    simp only [freshResult, hrs, generate_analysis_report]
    rw [hint.1, hc]
  have hfresh3 : (freshResult cfg comps text meta).issues = [] := by
    simp only [freshResult, hrs, generate_analysis_report]
    rw [hint.2.1]
  refine ⟨st.heap.length, _,
    analyze_miss cfg comps st text meta hval hmiss, ?_, ?_, ?_⟩ <;>
    simp only [getD_concat_length, hfresh1, hfresh2, hfresh3]

unseal Rat.ofScientific Rat.mul Rat.add Rat.inv Rat.sub in
/-- Witness for `partial_failure_tolerated`: on a concrete document
with components whose contradiction detector always raises, `analyze`
completes with a populated classification and no issues. -/
theorem partial_failure_tolerated_witness :
    ∃ ref st2,
      analyze demoCfg demoFailingComps {} demoDocText none =
        .ok (ref, st2) ∧
      (st2.heap.getD ref emptyResult).status = "completed" ∧
      (st2.heap.getD ref emptyResult).classification =
        some { document_type := .contract, confidence := 1/2 } ∧
      (st2.heap.getD ref emptyResult).issues = [] :=
  partial_failure_tolerated demoCfg demoFailingComps {} demoDocText none
    "detection failed"
    { emptyResult with
      classification := some { document_type := .contract, confidence := 1/2 }
      confidence_score := 1/2 }
    { document_type := .contract, confidence := 1/2 }
    (by decide) (by decide) rfl rfl rfl rfl rfl

/-- C2 (amended): on a cache hit, `analyze` returns the very
`AnalysisResult` object stored in the cache — the returned reference is
the cached reference — after mutating the stored object's metadata in
place to mark the cache hit; the issues, remedies and classification of
the stored snapshot are untouched, but any caller mutation of the
returned result's sub-lists would alias the cached snapshot. -/
theorem cache_hit_returns_stored_object (cfg : AnalyzerConfig)
    (comps : Components) (st : AnalyzerState) (text : List Char)
    (meta : Option Metadata) (ref : Nat)
    (hval : validate_input cfg text = true)
    (hcache : cfg.enable_caching = true)
    (href : lookupAssoc (generate_cache_key text meta) st.cache = some ref)
    (hlt : ref < st.heap.length) :
    ∃ st2, analyze cfg comps st text meta = .ok (ref, st2) ∧
      st2.cache = st.cache ∧
      st2.heap =
        st.heap.set ref (markCachedHit (st.heap.getD ref emptyResult)) ∧
      st2.heap.getD ref emptyResult =
        markCachedHit (st.heap.getD ref emptyResult) ∧
      (st2.heap.getD ref emptyResult).metadata.cachedResult = true ∧
      (st2.heap.getD ref emptyResult).issues =
        (st.heap.getD ref emptyResult).issues ∧
      (st2.heap.getD ref emptyResult).remedies =
        (st.heap.getD ref emptyResult).remedies ∧
      (st2.heap.getD ref emptyResult).classification =
        (st.heap.getD ref emptyResult).classification := by
  have hget : (st.heap.set ref
      (markCachedHit (st.heap.getD ref emptyResult))).getD ref emptyResult =
      markCachedHit (st.heap.getD ref emptyResult) :=
    getD_set_self _ _ _ _ hlt
  refine ⟨_, analyze_hit cfg comps st text meta ref hval hcache href,
    rfl, rfl, hget, ?_, ?_, ?_, ?_⟩ <;> rw [hget] <;> rfl

/-- C5: with caching enabled, two `analyze` calls on the same state
with identical text and metadata return the same heap reference (hence
identical issues, remedies and classification), and the second call is
served as a cache hit (the result is marked `cached_result`). -/
theorem analyze_idempotent (cfg : AnalyzerConfig) (comps : Components)
    (st : AnalyzerState) (text : List Char) (meta : Option Metadata)
    (hval : validate_input cfg text = true)
    (hcache : cfg.enable_caching = true)
    (hwf : WFState st) :
    ∃ r1 s1 r2 s2,
      analyze cfg comps st text meta = .ok (r1, s1) ∧
      analyze cfg comps s1 text meta = .ok (r2, s2) ∧
      r2 = r1 ∧
      (s2.heap.getD r2 emptyResult).issues =
        (s1.heap.getD r1 emptyResult).issues ∧
      (s2.heap.getD r2 emptyResult).remedies =
        (s1.heap.getD r1 emptyResult).remedies ∧
      (s2.heap.getD r2 emptyResult).classification =
        (s1.heap.getD r1 emptyResult).classification ∧
      (s2.heap.getD r2 emptyResult).metadata.cachedResult = true := by
  cases hl : lookupAssoc (generate_cache_key text meta) st.cache with
  | some ref =>
      have hlt : ref < st.heap.length :=
        hwf _ (lookupAssoc_mem hl)
      have h1 := analyze_hit cfg comps st text meta ref hval hcache hl
      set r0 := st.heap.getD ref emptyResult with hr0
      set s1 : AnalyzerState :=
        { st with heap := st.heap.set ref (markCachedHit r0) } with hs1
      have hl2 : lookupAssoc (generate_cache_key text meta) s1.cache =
          some ref := hl
      have h2 := analyze_hit cfg comps s1 text meta ref hval hcache hl2
      have hlt1 : ref < s1.heap.length := by
        simpa [hs1] using hlt
      have hget1 : s1.heap.getD ref emptyResult = markCachedHit r0 := by
        simpa [hs1] using getD_set_self st.heap ref (markCachedHit r0)
          emptyResult hlt
      have hget2 : (s1.heap.set ref
          (markCachedHit (s1.heap.getD ref emptyResult))).getD ref
            emptyResult =
          markCachedHit (s1.heap.getD ref emptyResult) :=
        getD_set_self _ _ _ _ hlt1
      refine ⟨ref, s1, ref, _, h1, h2, rfl, ?_, ?_, ?_, ?_⟩ <;>
        rw [hget2, hget1] <;> rfl
  | none =>
      have hmiss : (if cfg.enable_caching then
          lookupAssoc (generate_cache_key text meta) st.cache
        else none) = none := by rw [hcache]; exact hl
      have h1 := analyze_miss cfg comps st text meta hval hmiss
      set final := freshResult cfg comps text meta with hfinal
      set s1 : AnalyzerState :=
        { heap := st.heap ++ [final]
          cache :=
            if cfg.enable_caching then
              (generate_cache_key text meta, st.heap.length) :: st.cache
            else st.cache } with hs1
      have hl2 : lookupAssoc (generate_cache_key text meta) s1.cache =
          some st.heap.length := by
        simp [hs1, hcache, lookupAssoc]
      have h2 := analyze_hit cfg comps s1 text meta st.heap.length hval
        hcache hl2
      have hlt1 : st.heap.length < s1.heap.length := by
        simp [hs1]
      have hget1 : s1.heap.getD st.heap.length emptyResult = final := by
        simpa [hs1] using getD_concat_length st.heap final emptyResult
      have hget2 : (s1.heap.set st.heap.length
          (markCachedHit (s1.heap.getD st.heap.length emptyResult))).getD
            st.heap.length emptyResult =
          markCachedHit (s1.heap.getD st.heap.length emptyResult) :=
        getD_set_self _ _ _ _ hlt1
      refine ⟨st.heap.length, s1, st.heap.length, _, ?_, h2, rfl,
        ?_, ?_, ?_, ?_⟩
      · simpa [hs1] using h1
      all_goals rw [hget2, hget1] <;> rfl

/-- Witness for `cache_hit_returns_stored_object` on a concrete cached
state. -/
theorem cache_hit_returns_stored_object_witness :
    ∃ st2, analyze demoCfg demoComps demoCachedState demoDocText none =
        .ok (0, st2) ∧
      st2.cache = demoCachedState.cache ∧
      st2.heap = demoCachedState.heap.set 0
        (markCachedHit (demoCachedState.heap.getD 0 emptyResult)) ∧
      st2.heap.getD 0 emptyResult =
        markCachedHit (demoCachedState.heap.getD 0 emptyResult) ∧
      (st2.heap.getD 0 emptyResult).metadata.cachedResult = true ∧
      (st2.heap.getD 0 emptyResult).issues =
        (demoCachedState.heap.getD 0 emptyResult).issues ∧
      (st2.heap.getD 0 emptyResult).remedies =
        (demoCachedState.heap.getD 0 emptyResult).remedies ∧
      (st2.heap.getD 0 emptyResult).classification =
        (demoCachedState.heap.getD 0 emptyResult).classification :=
  cache_hit_returns_stored_object demoCfg demoComps demoCachedState
    demoDocText none 0 (by decide) rfl (by decide) (by decide)

unseal Rat.ofScientific Rat.mul Rat.add Rat.inv Rat.sub in
/-- C2 (counterexample to the claim as stated): running the demo
analyzer twice on the same text, the second (cache-hit) call returns
heap cell 0 — the very cell the cache maps the key to, not a distinct
copy — and the hit path mutates the stored snapshot's metadata in
place (`cached_result` flips from false to true on the stored cell). -/
theorem cache_hit_alias_counterexample :
    demoRun1 = .ok (0, demoState1) ∧
    demoRun2 = .ok (0, demoState2) ∧
    lookupAssoc (generate_cache_key demoDocText none) demoState1.cache =
      some 0 ∧
    (demoState1.heap.getD 0 emptyResult).metadata.cachedResult = false ∧
    (demoState2.heap.getD 0 emptyResult).metadata.cachedResult = true := by
  exact ⟨by rfl, by rfl, by decide, by decide, by decide⟩

unseal Rat.ofScientific Rat.mul Rat.add Rat.inv Rat.sub in
/-- Witness for `analyze_idempotent` on the empty state with the demo
components. -/
theorem analyze_idempotent_witness :
    ∃ r1 s1 r2 s2,
      analyze demoCfg demoComps {} demoDocText none = .ok (r1, s1) ∧
      analyze demoCfg demoComps s1 demoDocText none = .ok (r2, s2) ∧
      r2 = r1 ∧
      (s2.heap.getD r2 emptyResult).issues =
        (s1.heap.getD r1 emptyResult).issues ∧
      (s2.heap.getD r2 emptyResult).remedies =
        (s1.heap.getD r1 emptyResult).remedies ∧
      (s2.heap.getD r2 emptyResult).classification =
        (s1.heap.getD r1 emptyResult).classification ∧
      (s2.heap.getD r2 emptyResult).metadata.cachedResult = true :=
  analyze_idempotent demoCfg demoComps {} demoDocText none (by decide) rfl
    (fun e he => absurd he (List.not_mem_nil e))

/-- Lookup after filtering to a fixed key set. -/
theorem lookupAssoc_filter_keys {ν : Type} (keys : List String)
    (m : List (String × ν)) (k : String) :
    lookupAssoc k (m.filter fun e => e.1 ∈ keys) =
      if k ∈ keys then lookupAssoc k m else none := by
  induction m with
  | nil => simp [lookupAssoc]
  | cons e rest ih =>
    obtain ⟨ek, ev⟩ := e
    rw [List.filter_cons]
    by_cases hek : ek ∈ keys
    · rw [if_pos (by simpa using hek)]
      by_cases hk : k = ek
      · subst hk
        simp [lookupAssoc, hek]
      · simp only [lookupAssoc, if_neg hk]
        exact ih
    · rw [if_neg (by simpa using hek), ih]
      by_cases hk : k = ek
      · subst hk
        simp [lookupAssoc, hek]
      · simp only [lookupAssoc, if_neg hk]

/-- Lookup misses when the key is absent. -/
theorem lookupAssoc_eq_none {κ ν : Type} [DecidableEq κ] {k : κ} :
    ∀ {l : List (κ × ν)}, k ∉ l.map Prod.fst → lookupAssoc k l = none := by
  intro l
  induction l with
  | nil => intro _; rfl
  | cons e rest ih =>
    intro h
    simp only [List.map_cons, List.mem_cons, not_or] at h
    simp only [lookupAssoc, if_neg h.1]
    exact ih h.2

/-- With duplicate-free keys, association-list lookup is invariant
under permutation. -/
theorem lookupAssoc_perm {κ ν : Type} [DecidableEq κ] :
    ∀ {l1 l2 : List (κ × ν)}, l1.Perm l2 →
      (l1.map Prod.fst).Nodup → ∀ k, lookupAssoc k l1 = lookupAssoc k l2 := by
  intro l1 l2 h
  induction h with
  | nil => intro _ _; rfl
  | cons x h ih =>
    intro hnd k
    simp only [List.map_cons, List.nodup_cons] at hnd
    simp only [lookupAssoc]
    by_cases hk : k = x.1
    · rw [if_pos hk, if_pos hk]
    · rw [if_neg hk, if_neg hk]
      exact ih hnd.2 k
  | swap x y l =>
    intro hnd k
    simp only [List.map_cons, List.nodup_cons, List.mem_cons, not_or] at hnd
    have hxy : y.1 ≠ x.1 := hnd.1.1
    simp only [lookupAssoc]
    by_cases h1 : k = y.1 <;> by_cases h2 : k = x.1
    · exact absurd (h1 ▸ h2 : y.1 = x.1) (by simpa [h1] using hxy)
    · rw [if_pos h1, if_neg h2, if_pos h1]
    · rw [if_neg h1, if_pos h2, if_pos h2]
    · rw [if_neg h1, if_neg h2, if_neg h1, if_neg h2]
  | trans h1 h2 ih1 ih2 =>
    intro hnd k
    rw [ih1 hnd k, ih2 (((h1.map Prod.fst).nodup_iff).mp hnd) k]

/-- Two key-strictly-sorted association lists with the same lookup
function are equal. -/
theorem sorted_lookup_unique {ν : Type} :
    ∀ (l1 l2 : List (String × ν)),
      l1.Pairwise (fun a b => a.1 < b.1) →
      l2.Pairwise (fun a b => a.1 < b.1) →
      (∀ k, lookupAssoc k l1 = lookupAssoc k l2) → l1 = l2 := by
  intro l1
  induction l1 with
  | nil =>
    intro l2 _ _ hlook
    cases l2 with
    | nil => rfl
    | cons e2 t2 =>
      have h := hlook e2.1
      simp [lookupAssoc] at h
  | cons e1 t1 ih =>
    intro l2 hs1 hs2 hlook
    cases l2 with
    | nil =>
      have h := hlook e1.1
      simp [lookupAssoc] at h
    | cons e2 t2 =>
      have h11 : lookupAssoc e1.1 (e2 :: t2) = some e1.2 := by
        rw [← hlook e1.1]; simp [lookupAssoc]
      have h22 : lookupAssoc e2.1 (e1 :: t1) = some e2.2 := by
        rw [hlook e2.1]; simp [lookupAssoc]
      by_cases he : e1.1 = e2.1
      · have hv : e1.2 = e2.2 := by
          rw [lookupAssoc, if_pos he] at h11
          exact (Option.some.inj h11).symm
        have hee : e1 = e2 := Prod.ext he hv
        subst hee
        have htail : ∀ k, lookupAssoc k t1 = lookupAssoc k t2 := by
          intro k
          by_cases hk : k = e1.1
          · subst hk
            rw [lookupAssoc_eq_none, lookupAssoc_eq_none]
            · intro hmem
              obtain ⟨x, hx, hfst⟩ := List.mem_map.mp hmem
              exact absurd (hfst ▸ List.rel_of_pairwise_cons hs2 hx)
                (lt_irrefl _)
            · intro hmem
              obtain ⟨x, hx, hfst⟩ := List.mem_map.mp hmem
              exact absurd (hfst ▸ List.rel_of_pairwise_cons hs1 hx)
                (lt_irrefl _)
          · have h := hlook k
            rwa [lookupAssoc, if_neg hk, lookupAssoc, if_neg hk] at h
        rw [ih t2 (List.Pairwise.of_cons hs1) (List.Pairwise.of_cons hs2)
          htail]
      · exfalso
        rw [lookupAssoc, if_neg he] at h11
        rw [lookupAssoc, if_neg (fun h => he h.symm)] at h22
        have hm1 : (e1.1, e1.2) ∈ t2 := lookupAssoc_mem h11
        have hm2 : (e2.1, e2.2) ∈ t1 := lookupAssoc_mem h22
        have hlt1 : e2.1 < e1.1 := List.rel_of_pairwise_cons hs2 hm1
        have hlt2 : e1.1 < e2.1 := List.rel_of_pairwise_cons hs1 hm2
        exact lt_asymm hlt1 hlt2

/-- The key comparison used by the cache-key serialization is
transitive. -/
theorem keyLE_trans (a b c : String × String)
    (hab : decide (a.1 ≤ b.1) = true) (hbc : decide (b.1 ≤ c.1) = true) :
    decide (a.1 ≤ c.1) = true :=
  decide_eq_true (le_trans (of_decide_eq_true hab) (of_decide_eq_true hbc))

/-- The key comparison used by the cache-key serialization is total. -/
theorem keyLE_total (a b : String × String) :
    (decide (a.1 ≤ b.1) || decide (b.1 ≤ a.1)) = true := by
  rcases le_total a.1 b.1 with h | h <;> simp [h]

/-- A weakly key-sorted association list with duplicate-free keys is
strictly key-sorted. -/
theorem pairwise_lt_of_le_nodup {ν : Type} (l : List (String × ν))
    (hle : l.Pairwise (fun a b => a.1 ≤ b.1))
    (hnd : (l.map Prod.fst).Nodup) :
    l.Pairwise (fun a b => a.1 < b.1) := by
  have hne : l.Pairwise (fun a b => a.1 ≠ b.1) :=
    List.pairwise_map.mp hnd
  exact (hle.and hne).imp fun h => lt_of_le_of_ne h.1 h.2

/-- The canonical (filtered and key-sorted) metadata component of the
cache key, with all the facts needed about it. -/
theorem cache_key_canonical (m : Metadata)
    (hnd : (m.map Prod.fst).Nodup) :
    ((m.filter fun e => e.1 ∈ cacheRelevantKeys).mergeSort
        (fun a b => decide (a.1 ≤ b.1))).Pairwise
      (fun a b => a.1 < b.1) ∧
    (∀ k, lookupAssoc k
        ((m.filter fun e => e.1 ∈ cacheRelevantKeys).mergeSort
          (fun a b => decide (a.1 ≤ b.1))) =
      if k ∈ cacheRelevantKeys then lookupAssoc k m else none) := by
  have hsub : ((m.filter fun e => e.1 ∈ cacheRelevantKeys).map
      Prod.fst).Sublist (m.map Prod.fst) :=
    (List.filter_sublist m).map Prod.fst
  have hndf : ((m.filter fun e => e.1 ∈ cacheRelevantKeys).map
      Prod.fst).Nodup := hnd.sublist hsub
  have hperm := List.mergeSort_perm
    (m.filter fun e => e.1 ∈ cacheRelevantKeys)
    (fun a b => decide (a.1 ≤ b.1))
  have hnds : (((m.filter fun e => e.1 ∈ cacheRelevantKeys).mergeSort
      (fun a b => decide (a.1 ≤ b.1))).map Prod.fst).Nodup :=
    ((hperm.map Prod.fst).nodup_iff).mpr hndf
  constructor
  · refine pairwise_lt_of_le_nodup _ ?_ hnds
    have hs := List.sorted_mergeSort keyLE_trans keyLE_total
      (m.filter fun e => e.1 ∈ cacheRelevantKeys)
    exact hs.imp fun h => of_decide_eq_true h
  · intro k
    rw [lookupAssoc_perm hperm hnds k]
    exact lookupAssoc_filter_keys cacheRelevantKeys m k

/-- Two duplicate-free metadata dicts that agree on the three
cache-relevant keys produce the same cache key for the same text. -/
theorem generate_cache_key_agree (text : List Char) (m1 m2 : Metadata)
    (hnd1 : (m1.map Prod.fst).Nodup) (hnd2 : (m2.map Prod.fst).Nodup)
    (hne1 : m1 ≠ []) (hne2 : m2 ≠ [])
    (hagree : ∀ k ∈ cacheRelevantKeys,
      lookupAssoc k m1 = lookupAssoc k m2) :
    generate_cache_key text (some m1) = generate_cache_key text (some m2) := by
  simp only [generate_cache_key]
  have h1 := cache_key_canonical m1 hnd1
  have h2 := cache_key_canonical m2 hnd2
  rw [if_neg (by simp [hne1]), if_neg (by simp [hne2])]
  refine congrArg (fun x => (text, some x))
    (sorted_lookup_unique _ _ h1.1 h2.1 fun k => ?_)
  rw [h1.2 k, h2.2 k]
  by_cases hk : k ∈ cacheRelevantKeys
  · rw [if_pos hk, if_pos hk, hagree k hk]
  · rw [if_neg hk, if_neg hk]

/-- Integration never changes the `document_id`. -/
theorem integrate_document_id (cfg : AnalyzerConfig)
    (base : AnalysisResultV)
    (rs : List (String × Option AnalysisResultV)) :
    (integrate_analysis_results cfg base rs).document_id =
      base.document_id := by
  unfold integrate_analysis_results
  rcases lookupAssoc "classification" rs with _ | (_ | cr) <;>
    rcases lookupAssoc "contradiction_detection" rs with _ | (_ | dr) <;>
    rcases lookupAssoc "remedy_generation" rs with _ | (_ | rr) <;>
    simp only [] <;>
    (try cases cr.classification) <;>
    (try split) <;>
    rfl

/-- The `document_id` of a freshly computed result comes from the
call's metadata. -/
theorem freshResult_document_id (cfg : AnalyzerConfig)
    (comps : Components) (text : List Char) (meta : Option Metadata) :
    (freshResult cfg comps text meta).document_id =
      (meta.bind (lookupAssoc "document_id")).getD "" := by
  unfold freshResult generate_analysis_report
  rw [show ∀ r : AnalysisResultV,
      ({ r with metadata := { r.metadata with hasAnalysisReport := true }
         } : AnalysisResultV).document_id = r.document_id from fun _ => rfl]
  rw [integrate_document_id]

/-- C10 (amended): for two calls that both supply a truthy (non-`None`,
non-empty) metadata dict, the cache key depends only on the text and
the metadata keys `document_type`, `jurisdiction` and `version`; such
calls with the same text whose metadata agree on those keys but differ
elsewhere (e.g. in `document_id`) compute equal keys, so with caching
enabled the second call returns the first call's cached result,
including the first call's `document_id`.  (A falsy metadata dict is
keyed differently from any truthy one: see the counterexample.) -/
theorem cache_key_ignores_other_metadata (cfg : AnalyzerConfig)
    (comps : Components) (st : AnalyzerState) (text : List Char)
    (m1 m2 : Metadata)
    (hnd1 : (m1.map Prod.fst).Nodup) (hnd2 : (m2.map Prod.fst).Nodup)
    (hne1 : m1 ≠ []) (hne2 : m2 ≠ [])
    (hagree : ∀ k ∈ cacheRelevantKeys,
      lookupAssoc k m1 = lookupAssoc k m2)
    (hval : validate_input cfg text = true)
    (hcache : cfg.enable_caching = true)
    (hmiss : lookupAssoc (generate_cache_key text (some m1)) st.cache =
      none) :
    generate_cache_key text (some m1) = generate_cache_key text (some m2) ∧
    ∃ s1 r2 s2,
      analyze cfg comps st text (some m1) = .ok (st.heap.length, s1) ∧
      analyze cfg comps s1 text (some m2) = .ok (r2, s2) ∧
      r2 = st.heap.length ∧
      (s2.heap.getD r2 emptyResult).document_id =
        (lookupAssoc "document_id" m1).getD "" := by
  have hkey := generate_cache_key_agree text m1 m2 hnd1 hnd2 hne1 hne2 hagree
  refine ⟨hkey, ?_⟩
  have hmiss' : (if cfg.enable_caching then
      lookupAssoc (generate_cache_key text (some m1)) st.cache
    else none) = none := by simp [hcache, hmiss]
  have h1 := analyze_miss cfg comps st text (some m1) hval hmiss'
  set final := freshResult cfg comps text (some m1) with hfinal
  set s1 : AnalyzerState :=
    { heap := st.heap ++ [final]
      cache :=
        if cfg.enable_caching then
          (generate_cache_key text (some m1), st.heap.length) :: st.cache
        else st.cache } with hs1
  have hl2 : lookupAssoc (generate_cache_key text (some m2)) s1.cache =
      some st.heap.length := by
    simp [hs1, hcache, ← hkey, lookupAssoc]
  have h2 := analyze_hit cfg comps s1 text (some m2) st.heap.length hval
    hcache hl2
  have hlt1 : st.heap.length < s1.heap.length := by simp [hs1]
  have hget1 : s1.heap.getD st.heap.length emptyResult = final := by
    simpa [hs1] using getD_concat_length st.heap final emptyResult
  have hget2 := getD_set_self s1.heap st.heap.length
    (markCachedHit (s1.heap.getD st.heap.length emptyResult)) emptyResult
    hlt1
  refine ⟨s1, st.heap.length, _, by simpa [hs1] using h1, h2, rfl, ?_⟩
  rw [hget2, hget1]
  rw [show (markCachedHit final).document_id = final.document_id from rfl]
  rw [hfinal, freshResult_document_id]
  rfl

/-- Witness for `cache_key_ignores_other_metadata`: two metadata dicts
sharing `jurisdiction` (and lacking `document_type`/`version`) but with
different `document_id`s hit the same cache entry; the second call
reports the first call's `document_id`. -/
theorem cache_key_ignores_other_metadata_witness :
    generate_cache_key demoDocText (some demoMeta1) =
      generate_cache_key demoDocText (some demoMeta2) ∧
    ∃ s1 r2 s2,
      analyze demoCfg demoComps {} demoDocText (some demoMeta1) =
        .ok (0, s1) ∧
      analyze demoCfg demoComps s1 demoDocText (some demoMeta2) =
        .ok (r2, s2) ∧
      r2 = 0 ∧
      (s2.heap.getD r2 emptyResult).document_id =
        (lookupAssoc "document_id" demoMeta1).getD "" :=
  cache_key_ignores_other_metadata demoCfg demoComps {} demoDocText
    demoMeta1 demoMeta2 (by decide) (by decide) (by decide) (by decide)
    (by decide) (by decide) rfl rfl

unseal Rat.ofScientific Rat.mul Rat.add Rat.inv Rat.sub in
/-- C10 (counterexample to the claim as stated): absent metadata
(`None`) and the truthy dict `[("document_id", "doc-2")]` agree on all
three cache-relevant keys (none of them is present on either side),
yet `_generate_cache_key` appends the serialized filtered dict only
when the metadata is truthy, so the two calls compute different cache
keys; with caching enabled the second call is therefore a cache miss
that builds a fresh heap cell (index 1, not the cached index 0) whose
`document_id` is its own `doc-2`, not the first call's empty one. -/
theorem cache_key_truthiness_counterexample :
    (∀ k ∈ cacheRelevantKeys,
      (none : Option Metadata).bind (lookupAssoc k) =
        (some demoMetaC10).bind (lookupAssoc k)) ∧
    generate_cache_key demoDocText none ≠
      generate_cache_key demoDocText (some demoMetaC10) ∧
    demoRun1 = .ok (0, demoState1) ∧
    lookupAssoc (generate_cache_key demoDocText (some demoMetaC10))
      demoState1.cache = none ∧
    demoRunC10 = .ok (1, demoStateC10) ∧
    (demoStateC10.heap.getD 1 emptyResult).document_id = "doc-2" ∧
    (demoStateC10.heap.getD 0 emptyResult).document_id = "" :=
  ⟨by decide, by decide, by rfl, by decide, by rfl, by decide, by decide⟩

end LocalAgentCore
